import Mathlib

/-!
Verification of the `compras-tics` scraping scripts.

Strings are modelled as `List Char` (`Str`).  Pure Python helpers
(`sanitizar_doc_id`, `obtener_anio_desde_fecha`, `es_tic`, pagination
arithmetic) are translated directly from the source.  The three source
adapters (`scrape_boletin_tercera`, `scrape_comprar_tics`,
`scrape_comprar_tics_robot` / `ejecutar_robot`) are modelled as total
functions over an explicit environment that fixes the behaviour of the
network (the listing pages, the outcome of each detail fetch) and of the
caller-supplied cancel predicate; the progress callback is modelled by
collecting the emitted integers into a trace, and file output by
collecting the file names that would be written.
-/

set_option maxHeartbeats 1000000

abbrev Str := List Char

/-! ## Python string helpers -/

/-- Whitespace as matched by Python's `str.strip()` and the regex class
in the source's `re.sub(..)` calls: the ASCII whitespace characters plus
the usual Unicode whitespace code points. -/
def pyIsSpace (c : Char) : Bool :=
  c ∈ [' ', '\t', '\n', '\x0b', '\x0c', '\r',
       '\x1c', '\x1d', '\x1e', '\x1f', '\x85', '\xa0',
       '\u1680', '\u2000', '\u2001', '\u2002', '\u2003', '\u2004',
       '\u2005', '\u2006', '\u2007', '\u2008', '\u2009', '\u200a',
       '\u2028', '\u2029', '\u202f', '\u205f', '\u3000']

/-- Python `str.strip()`: drop leading and trailing whitespace. -/
def pyStrip (s : Str) : Str :=
  ((s.dropWhile pyIsSpace).reverse.dropWhile pyIsSpace).reverse

/-- One step of `str.replace(old, new)` for single characters. -/
def replChar (old new : Char) (c : Char) : Char :=
  if c = old then new else c

/-- Model of `re.sub(r"\s+", "_", s)`: every maximal run of whitespace
is replaced by a single underscore.  The boolean argument records
whether the previous character was part of a whitespace run. -/
def collapseWsAux : Str → Bool → Str
  | [], _ => []
  | c :: rest, inRun =>
    if pyIsSpace c then
      if inRun then collapseWsAux rest true
      else '_' :: collapseWsAux rest true
    else c :: collapseWsAux rest false

def collapseWs (s : Str) : Str := collapseWsAux s false

/-- `sanitizar_doc_id` from `src/proyectos/subir_a_firestore.py` (the
copy in `src/compras_to_bigquery.py` is identical): strip, replace `/`
and `\` by `-`, then collapse whitespace runs to `_`.  The source first
applies `str(base)`; the model takes the string directly. -/
def sanitizar_doc_id (base : Str) : Str :=
  collapseWs (((pyStrip base).map (replChar '/' '-')).map (replChar '\\' '-'))

/-! ## `obtener_anio_desde_fecha` -/

/-- ASCII decimal digit, as matched by `\d` on the source's inputs. -/
def isDigitChar (c : Char) : Bool := '0' ≤ c ∧ c ≤ '9'

/-- `fourDigitRunAt s i = true` iff four consecutive decimal digits
start at index `i` of `s`. -/
def fourDigitRunAt (s : Str) (i : Nat) : Bool :=
  ((s.drop i).take 4).length = 4 && ((s.drop i).take 4).all isDigitChar

/-- Leftmost-match behaviour of `re.search(r"(\d{4})", s)`: the first
four-digit window of `s`, if any. -/
def findFourDigits : Str → Option Str
  | [] => none
  | c :: rest =>
    if fourDigitRunAt (c :: rest) 0 then some ((c :: rest).take 4)
    else findFourDigits rest

/-- Numeric value of a digit string, as computed by Python's `int`. -/
def digitsVal (s : Str) : Nat :=
  s.foldl (fun a c => a * 10 + (c.toNat - '0'.toNat)) 0

/-- A Python value as passed to `obtener_anio_desde_fecha`: either a
string or any non-string value (all non-strings behave alike). -/
inductive PyVal where
  | str (s : Str)
  | nonStr
deriving DecidableEq

/-- `obtener_anio_desde_fecha` from `src/proyectos/subir_a_firestore.py`
(`src/compras_to_bigquery.py` has the identical copy): `None` unless the
input is a string containing four consecutive digits, else the integer
value of the leftmost such window.  The source's `try int(..) except
ValueError` can never fail on four ASCII digits, so the model returns
the value directly. -/
def obtener_anio_desde_fecha : PyVal → Option Nat
  | .nonStr => none
  | .str s =>
    match findFourDigits s with
    | none => none
    | some d => some (digitsVal d)

/-! ## Accent stripping, lower casing and `es_tic` -/

/-- `_strip_accents` from `src/scrapers/comprar.py`: NFD-normalise and
drop combining marks.  On the Latin letters that occur in the keyword
list and the relevant inputs this is exactly the removal of the accent;
characters outside this set are unchanged. -/
def stripAccentChar (c : Char) : Char :=
  match c with
  | 'á' => 'a' | 'é' => 'e' | 'í' => 'i' | 'ó' => 'o' | 'ú' => 'u'
  | 'Á' => 'A' | 'É' => 'E' | 'Í' => 'I' | 'Ó' => 'O' | 'Ú' => 'U'
  | 'ñ' => 'n' | 'Ñ' => 'N' | 'ü' => 'u' | 'Ü' => 'U'
  | _ => c

def stripAccents (s : Str) : Str := s.map stripAccentChar

/-- Python `str.lower()` restricted to ASCII letters (accents have been
stripped before `lower` is applied in the source). -/
def pyLowerChar (c : Char) : Char :=
  if 'A' ≤ c ∧ c ≤ 'Z' then Char.ofNat (c.toNat + 32) else c

def pyLower (s : Str) : Str := s.map pyLowerChar

/-- The normalisation applied to both the keywords and the text in
`es_tic`: strip accents, then lower-case. -/
def ticNorm (s : Str) : Str := pyLower (stripAccents s)

/-- `TIC_KEYWORDS` from `src/scrapers/comprar.py`. -/
def TIC_KEYWORDS : List Str :=
  [ "computadora", "computadoras", "notebook", "notebooks", "laptop",
    "laptops", "pc de escritorio", "equipo informático",
    "equipo informatico", "equipos informáticos", "equipos informaticos",
    "equipamiento informático", "equipamiento informatico", "servidor",
    "servidores", "impresora", "impresoras", "multifunción",
    "multifuncion", "plotter", "scanner", "escáner", "monitor",
    "monitores", "teclado", "teclados", "mouse", "mouses",
    "disco rígido", "discos rígidos", "disco duro", "discos duros",
    "ssd", "switch", "switches", "router", "routers", "firewall",
    "firewalls", "access point", "punto de acceso", "wifi",
    "redes informáticas", "redes informaticas", "cableado estructurado",
    "datacenter", "data center", "virtualización", "virtualizacion",
    "storage", "cabina de almacenamiento",
    "infraestructura tecnológica", "infraestructura tecnologica",
    "software", "sistema informático", "sistema informatico",
    "sistemas informáticos", "sistemas informaticos",
    "programa informático", "programa informatico",
    "programas informáticos", "programas informaticos",
    "licencia de software", "licencias de software", "antivirus",
    "licencias de uso de software", "suscripción de software",
    "suscripcion de software", "desarrollo de software",
    "desarrollo de sistemas", "desarrollo informático",
    "desarrollo informatico", "mantenimiento de software",
    "mantenimiento de sistemas", "implementación de software",
    "implementacion de software", "servicios informáticos",
    "servicios informaticos", "servicios de informática",
    "servicios de informatica", "soporte técnico informático",
    "soporte tecnico informatico", "servicio técnico informático",
    "servicio tecnico informatico", "hosting", "cloud", "nube", "saas",
    "iaas", "paas", "tecnologías de la información",
    "tecnologias de la informacion" ].map String.toList

/-- Executable prefix test used by `substrB`. -/
def isPrefixOfB : Str → Str → Bool
  | [], _ => true
  | _ :: _, [] => false
  | a :: as, b :: bs => a = b && isPrefixOfB as bs

/-- Python's `needle in hay` substring test. -/
def substrB (needle : Str) : Str → Bool
  | [] => needle.isEmpty
  | c :: rest => isPrefixOfB needle (c :: rest) || substrB needle rest

/-- `es_tic` from `src/scrapers/comprar.py`.  `none` models Python
`None`; `if not texto` is false for `None` and for the empty string. -/
def es_tic (texto : Option Str) : Bool :=
  match texto with
  | none => false
  | some t =>
    if t.isEmpty then false
    else
      TIC_KEYWORDS.any fun kw =>
        let kw_norm := ticNorm kw
        if kw_norm.length ≤ 2 then false
        else substrB kw_norm (ticNorm t)

/-! ## Dates and run results -/

/-- A `datetime.date`, used only through `strftime("%Y%m%d")`. -/
structure PyDate where
  year : Nat
  month : Nat
  day : Nat
deriving DecidableEq

/-- Left-pad the decimal representation of `n` with zeros to width `w`. -/
def padNat (w n : Nat) : Str :=
  let ds := Nat.toDigits 10 n
  List.replicate (w - ds.length) '0' ++ ds

/-- `d.strftime("%Y%m%d")`. -/
def strftimeYMD (d : PyDate) : Str :=
  padNat 4 d.year ++ padNat 2 d.month ++ padNat 2 d.day

/-- Observable outcome of one adapter run: the accumulated records, the
sequence of integers handed to `progress_callback`, the returned count,
and the names of the spreadsheet files written. -/
structure RunResult (α : Type) where
  records : List α
  trace : List Nat
  retval : Nat
  files : List Str
deriving DecidableEq

/-! ## Python truthiness for optional strings -/

/-- Python truthiness of an optional string (`None` and `""` are falsy). -/
def pyTruthy : Option Str → Bool
  | none => false
  | some s => !s.isEmpty

/-- Python's `a or b` on optional strings. -/
def pyOr (a b : Option Str) : Option Str :=
  if pyTruthy a then a else b

/-- `" ".join(t for t in parts if t)` from the classification call
sites. -/
def texto_tic (parts : List Str) : Str :=
  List.intercalate [' '] (parts.filter fun t => !t.isEmpty)

/-! ## COMPR.AR HTTP adapter (`src/scrapers/comprar.py`) -/

/-- One listing row as produced by `_extract_list_rows_from_soup`. -/
structure ListRow where
  numero_proceso_list : Str
  nombre_proceso_list : Option Str
  tipo_proceso_list : Option Str
  fecha_apertura_list : Option Str
  estado_list : Option Str
  unidad_ejecutora_list : Option Str
  saf_list : Option Str
  detalle_url : Option Str
deriving DecidableEq

/-- The dict returned by `extract_convocatoria_fields`. -/
structure Detail where
  numero_proceso : Option Str
  expediente : Option Str
  nombre_proceso : Option Str
  tipo_proceso : Option Str
  fecha_apertura : Option Str
  estado : Option Str
  unidad_ejecutora : Option Str
  saf : Option Str
  detalle_productos : Option Str
  pliego_nombre : Option Str
  pliego_url : Option Str
  url : Option Str
deriving DecidableEq

/-- The empty dict `{}` used when a detail fetch fails. -/
def emptyDetail : Detail :=
  ⟨none, none, none, none, none, none, none, none, none, none, none, none⟩

/-- Environment outcome of one detail fetch: either the parsed detail
dict, or failure.  `fail` covers both an exception (caught in the
source, `detail_data = {}` in the HTTP adapter, `detalle = None` in the
robot) and a `None` result of the postback path. -/
inductive DetailFetch where
  | ok (d : Detail)
  | fail
deriving DecidableEq

/-- The detail dict actually merged for a fetch outcome. -/
def DetailFetch.data : DetailFetch → Detail
  | .ok d => d
  | .fail => emptyDetail

/-- A fully merged record as appended to `records` in
`scrape_comprar_tics` (and `registros` in `ejecutar_robot`). -/
structure Record where
  numero_proceso : Option Str
  expediente : Option Str
  nombre_proceso : Option Str
  tipo_proceso : Option Str
  fecha_apertura : Option Str
  estado : Option Str
  unidad_ejecutora : Option Str
  saf : Option Str
  detalle_productos : Option Str
  pliego_nombre : Option Str
  pliego_url : Option Str
  url_detalle : Option Str
  es_tic : Bool
deriving DecidableEq

/-- The merge step of `scrape_comprar_tics` (lines 1058-1092): detail
values win, listing values are the fallback; `es_tic` is computed from
`detalle_productos` and `nombre_proceso` of the merged record. -/
def mergeComprar (row : ListRow) (d : Detail) : Record :=
  let nombre := pyOr d.nombre_proceso row.nombre_proceso_list
  { numero_proceso := pyOr d.numero_proceso (some row.numero_proceso_list)
    expediente := d.expediente
    nombre_proceso := nombre
    tipo_proceso := pyOr d.tipo_proceso row.tipo_proceso_list
    fecha_apertura := pyOr d.fecha_apertura row.fecha_apertura_list
    estado := pyOr d.estado row.estado_list
    unidad_ejecutora := pyOr d.unidad_ejecutora row.unidad_ejecutora_list
    saf := pyOr d.saf row.saf_list
    detalle_productos := d.detalle_productos
    pliego_nombre := d.pliego_nombre
    pliego_url := d.pliego_url
    url_detalle := pyOr d.url row.detalle_url
    es_tic := es_tic (some (texto_tic
      [d.detalle_productos.getD [], nombre.getD []])) }

/-- Environment of one `scrape_comprar_tics` run: the listing pages
returned by `_iter_compras_pages` (as extracted rows), the outcome of
the detail fetch attempted for the i-th row, and the value returned by
the i-th call of `is_cancelled`. -/
structure ComprarEnv where
  pages : List (List ListRow)
  detail : Nat → DetailFetch
  cancel : Nat → Bool

/-- The detail dict obtained for row `i` (lines 1025-1054): via the
direct URL when present, via postback when the listing number is
non-empty, else the empty dict without any fetch. -/
def comprarDetailData (detail : Nat → DetailFetch) (i : Nat)
    (row : ListRow) : Detail :=
  match row.detalle_url with
  | some _ => (detail i).data
  | none =>
    if row.numero_proceso_list.isEmpty then emptyDetail
    else (detail i).data

/-- The per-row loop of `scrape_comprar_tics` (lines 1021-1098): poll
`is_cancelled`, fetch and merge, emit `int(idx * 100 / total)`.  `i` is
the 0-based index of the row (so `idx = i + 1`); the float division of
the source is exact enough that its truncation coincides with `Nat`
division here. -/
def comprarLoop (detail : Nat → DetailFetch) (cancel : Nat → Bool)
    (total : Nat) : List ListRow → Nat → List Record × List Nat
  | [], _ => ([], [])
  | row :: rest, i =>
    if cancel i then ([], [])
    else
      let r := mergeComprar row (comprarDetailData detail i row)
      let out := comprarLoop detail cancel total rest (i + 1)
      (r :: out.1, (i + 1) * 100 / total :: out.2)

/-- Name of the spreadsheet written by `scrape_comprar_tics`. -/
def comprar_filename (s e : PyDate) : Str :=
  "comprar_tics_".toList ++ strftimeYMD s ++ "_".toList ++
    strftimeYMD e ++ ".xlsx".toList

/-- `scrape_comprar_tics` (lines 986-1144): walk the listing, merge the
detail of every row, export if any record was produced, report 100 at
the end. -/
def scrape_comprar_tics (start_date end_date : PyDate)
    (env : ComprarEnv) : RunResult Record :=
  let list_rows := env.pages.flatten
  let total := list_rows.length
  if total = 0 then
    { records := [], trace := [100], retval := 0, files := [] }
  else
    let out := comprarLoop env.detail env.cancel total list_rows 0
    if out.1.isEmpty then
      { records := out.1, trace := out.2 ++ [100], retval := 0, files := [] }
    else
      { records := out.1, trace := out.2 ++ [100], retval := out.1.length,
        files := [comprar_filename start_date end_date] }

/-! ## List-page walker (`_iter_compras_pages`, lines 901-959) -/

/-- The information extracted from the first listing page that drives
the pagination logic: `_parse_total_results`, the number of rows
extracted (the page size), `_parse_simple_pager_links` (abstract link
identifiers) and `_parse_pager_target`. -/
structure ListingPage where
  totalResults : Option Nat
  numRows : Nat
  simpleLinks : List Nat
  pagerTarget : Option Nat
deriving DecidableEq

/-- One page fetch performed by the walker. -/
inductive Fetch where
  | first
  | simple (link : Nat)
  | postback (page : Nat)
deriving DecidableEq

/-- `max_pages is not None and idx > max_pages`. -/
def maxPagesHit (max_pages : Option Nat) (idx : Nat) : Bool :=
  match max_pages with
  | some m => decide (idx > m)
  | none => false

/-- The simple-link loop (lines 926-933): enumerate the links starting
at index 2, breaking when `max_pages` is exceeded. -/
def simpleLoop (max_pages : Option Nat) : List Nat → Nat → List Fetch
  | [], _ => []
  | url :: rest, idx =>
    if maxPagesHit max_pages idx then []
    else Fetch.simple url :: simpleLoop max_pages rest (idx + 1)

/-- The postback loop (lines 940-957): `for page in
range(2, total_pages + 1)` with a break when `max_pages` is exceeded;
`cnt` is the number of remaining iterations. -/
def postbackLoop (max_pages : Option Nat) : Nat → Nat → List Fetch
  | _, 0 => []
  | page, cnt + 1 =>
    if maxPagesHit max_pages page then []
    else Fetch.postback page :: postbackLoop max_pages (page + 1) cnt

/-- `_iter_compras_pages` from `src/scrapers/comprar.py` (the Python
name carries a leading underscore), returning the sequence of page
fetches it performs.  `total_pages` is `(total + size - 1) // size`
when the total-results message and a non-zero page size are found;
Python's `not total_pages` is true for both `None` and `0`. -/
def iter_compras_pages (page1 : ListingPage) (max_pages : Option Nat) :
    List Fetch :=
  let total_pages : Option Nat :=
    match page1.totalResults with
    | some tr =>
      if page1.numRows ≠ 0 then
        some ((tr + page1.numRows - 1) / page1.numRows)
      else none
    | none => none
  if !page1.simpleLinks.isEmpty then
    Fetch.first :: simpleLoop max_pages page1.simpleLinks 2
  else
    match page1.pagerTarget, total_pages with
    | some _, some tp =>
      if tp ≤ 1 then [Fetch.first]
      else Fetch.first :: postbackLoop max_pages 2 (tp - 1)
    | _, _ => [Fetch.first]

/-! ## COMPR.AR browser-automation adapter (`src/scrapers/comprar_bot.py`) -/

/-- One listing row as produced by `obtener_filas_listado`. -/
structure BotRow where
  numero_proceso : Str
  objeto : Option Str
  tipo : Option Str
  fecha_apertura : Option Str
  estado : Option Str
  unidad_ejecutora : Option Str
  saf : Option Str
deriving DecidableEq

/-- The merge step of `ejecutar_robot` (lines 356-380): `estado`,
`unidad_ejecutora` and `saf` give priority to the listing; `es_tic` is
computed from `nombre_proceso` and `detalle_productos` (in that
order). -/
def mergeBot (fila : BotRow) (d : Detail) : Record :=
  let nombre := pyOr d.nombre_proceso fila.objeto
  { numero_proceso := pyOr d.numero_proceso (some fila.numero_proceso)
    expediente := d.expediente
    nombre_proceso := nombre
    tipo_proceso := pyOr d.tipo_proceso fila.tipo
    fecha_apertura := pyOr d.fecha_apertura fila.fecha_apertura
    estado := pyOr fila.estado d.estado
    unidad_ejecutora := pyOr fila.unidad_ejecutora d.unidad_ejecutora
    saf := pyOr fila.saf d.saf
    detalle_productos := d.detalle_productos
    pliego_nombre := d.pliego_nombre
    pliego_url := d.pliego_url
    url_detalle := d.url
    es_tic := es_tic (some (texto_tic
      [nombre.getD [], d.detalle_productos.getD []])) }

/-- Environment of one `ejecutar_robot` run: the rows of each listing
page in order (navigating to page `n + 1` succeeds exactly when that
page exists), the outcome of the detail visit for the i-th row attempt,
and the value returned by the i-th `is_cancelled` poll (one poll per
row attempt). -/
structure RobotEnv where
  pages : List (List BotRow)
  detail : Nat → DetailFetch
  cancel : Nat → Bool

/-- Result of the inner per-row loop of `ejecutar_robot`. -/
structure BotRowsOut where
  registros : List Record
  trace : List Nat
  nextIdx : Nat
  nextTotal : Nat
  cancelled : Bool
deriving DecidableEq

/-- The per-row loop of `ejecutar_robot` (lines 335-389): poll
`is_cancelled` (an observed `true` returns the accumulated rows at
once), skip the row when the detail visit fails (`continue` at line
350), otherwise merge, append and emit `min(total_procesos, 99)`.
`i` is the running row-attempt counter, `tp` the running
`total_procesos`. -/
def botRows (detail : Nat → DetailFetch) (cancel : Nat → Bool) :
    List BotRow → Nat → Nat → BotRowsOut
  | [], i, tp => ⟨[], [], i, tp, false⟩
  | fila :: rest, i, tp =>
    if cancel i then ⟨[], [], i + 1, tp, true⟩
    else
      match detail i with
      | .fail => botRows detail cancel rest (i + 1) tp
      | .ok d =>
        let registro := mergeBot fila d
        let out := botRows detail cancel rest (i + 1) (tp + 1)
        ⟨registro :: out.registros, min (tp + 1) 99 :: out.trace,
          out.nextIdx, out.nextTotal, out.cancelled⟩

/-- The page loop of `ejecutar_robot` (lines 327-395): process the
current page's rows, stop on an empty page, on cancellation, when
`max_paginas` is exceeded, or when there is no next page to navigate
to. -/
def botOuter (detail : Nat → DetailFetch) (cancel : Nat → Bool)
    (max_paginas : Option Nat) :
    List (List BotRow) → Nat → Nat → Nat → List Record × List Nat
  | [], _, _, _ => ([], [])
  | page :: restPages, pagina, i, tp =>
    if page.isEmpty then ([], [])
    else
      let out := botRows detail cancel page i tp
      if out.cancelled then (out.registros, out.trace)
      else if maxPagesHit max_paginas (pagina + 1) then
        (out.registros, out.trace)
      else if restPages.isEmpty then (out.registros, out.trace)
      else
        let out2 := botOuter detail cancel max_paginas restPages
          (pagina + 1) out.nextIdx out.nextTotal
        (out.registros ++ out2.1, out.trace ++ out2.2)

/-- `ejecutar_robot` (lines 310-408), as the pair of the accumulated
records (the rows of the returned DataFrame) and the emitted progress
values. -/
def ejecutar_robot (max_paginas : Option Nat) (env : RobotEnv) :
    List Record × List Nat :=
  botOuter env.detail env.cancel max_paginas env.pages 1 0 0

/-- Name of the spreadsheet written by `scrape_comprar_tics_robot`. -/
def robot_filename (s e : PyDate) : Str :=
  "comprar_selenium_".toList ++ strftimeYMD s ++ "_".toList ++
    strftimeYMD e ++ ".xlsx".toList

/-- `scrape_comprar_tics_robot` (lines 414-467): run the robot with
`max_paginas = 1` (hard-coded at line 429), export when the DataFrame
is non-empty, report 100 at the end. -/
def scrape_comprar_tics_robot (start_date end_date : PyDate)
    (env : RobotEnv) : RunResult Record :=
  let out := ejecutar_robot (some 1) env
  if out.1.isEmpty then
    { records := out.1, trace := out.2 ++ [100], retval := 0, files := [] }
  else
    { records := out.1, trace := out.2 ++ [100], retval := out.1.length,
      files := [robot_filename start_date end_date] }

/-! ## Boletín Oficial adapter (`src/scrapers/boletin_tercera.py`) -/

/-- One listing entry as returned by `_get_listado_avisos`. -/
structure Aviso where
  titulo_listado : Str
  url : Str
  fecha_edicion : Str
deriving DecidableEq

/-- The dict returned by `_parse_aviso`. -/
structure BolData where
  organismo : Option Str
  proceso : Option Str
  fecha_publicacion : Option Str
  resumen_proyecto : Option Str
  objeto_resumen : Option Str
  url : Str
deriving DecidableEq

/-- Outcome of one `_parse_aviso` call: the parsed dict or an
exception (caught at line 269, the aviso is skipped). -/
inductive ParseFetch where
  | ok (d : BolData)
  | exn
deriving DecidableEq

/-- One record appended by `scrape_boletin_tercera` (lines 273-275). -/
structure BolRecord where
  data : BolData
  titulo_listado : Str
  fecha_edicion : Str
deriving DecidableEq

/-- Environment of one `scrape_boletin_tercera` run: the avisos listed
for the day at offset `d` from `start_date`, the outcome of the i-th
`_parse_aviso` call, and the value returned by the p-th `is_cancelled`
poll. -/
structure BolEnv where
  avisos : Nat → List Aviso
  parse : Nat → ParseFetch
  cancel : Nat → Bool

/-- `min(100, max(0, int(frac * 100)))` with `frac * 100` given as an
exact natural number quotient. -/
def bolClamp (x : Nat) : Nat := min 100 (max 0 x)

/-- Result of the inner per-aviso loop. -/
structure BolAvOut where
  registros : List BolRecord
  trace : List Nat
  nextFetch : Nat
  nextPoll : Nat
  cancelled : Bool
deriving DecidableEq

/-- The per-aviso loop of `scrape_boletin_tercera` (lines 260-284) for
the day at offset `d` with `n` avisos out of `D` total days: poll
`is_cancelled` before each aviso (an observed `true` breaks), skip the
aviso on a parse exception (no record, no progress emission), otherwise
append and emit the clamped `int((day_index + idx/n)/total_days*100)`,
here `(d*n + idx)*100 / (n*D)` with exact arithmetic.  `idx` is the
1-based `enumerate` index, `i` the parse-call counter, `p` the poll
counter. -/
def bolAvisos (parse : Nat → ParseFetch) (cancel : Nat → Bool)
    (D d n : Nat) : List Aviso → Nat → Nat → Nat → BolAvOut
  | [], _, i, p => ⟨[], [], i, p, false⟩
  | av :: rest, idx, i, p =>
    if cancel p then ⟨[], [], i, p + 1, true⟩
    else
      match parse i with
      | .exn => bolAvisos parse cancel D d n rest (idx + 1) (i + 1) (p + 1)
      | .ok dat =>
        let reg : BolRecord := ⟨dat, av.titulo_listado, av.fecha_edicion⟩
        let pct := bolClamp ((d * n + idx) * 100 / (n * D))
        let out := bolAvisos parse cancel D d n rest (idx + 1) (i + 1) (p + 1)
        ⟨reg :: out.registros, pct :: out.trace,
          out.nextFetch, out.nextPoll, out.cancelled⟩

/-- The day loop of `scrape_boletin_tercera` (lines 239-291): poll
`is_cancelled` before each day; a day without avisos advances
`day_index` and emits the clamped day-level percentage; a day with
avisos runs the inner loop and then polls `is_cancelled` again (line
287) before moving on.  `daysLeft` is the number of days still to
process, `d` the 0-based `day_index`. -/
def bolDays (avisos : Nat → List Aviso) (parse : Nat → ParseFetch)
    (cancel : Nat → Bool) (D : Nat) :
    Nat → Nat → Nat → Nat → List BolRecord × List Nat
  | 0, _, _, _ => ([], [])
  | daysLeft + 1, d, i, p =>
    if cancel p then ([], [])
    else
      let avs := avisos d
      let n := avs.length
      if n = 0 then
        let pct := bolClamp ((d + 1) * 100 / D)
        let out := bolDays avisos parse cancel D daysLeft (d + 1) i (p + 1)
        (out.1, pct :: out.2)
      else
        let out := bolAvisos parse cancel D d n avs 1 i (p + 1)
        if cancel out.nextPoll then (out.registros, out.trace)
        else
          let out2 := bolDays avisos parse cancel D daysLeft (d + 1)
            out.nextFetch (out.nextPoll + 1)
          (out.registros ++ out2.1, out.trace ++ out2.2)

/-- Name of the spreadsheet written by `scrape_boletin_tercera`. -/
def boletin_filename (s e : PyDate) : Str :=
  "contrataciones_tercera_".toList ++ strftimeYMD s ++ "_".toList ++
    strftimeYMD e ++ ".xlsx".toList

/-- `scrape_boletin_tercera` (lines 214-315).  `D` models
`total_days = (end_date - start_date).days + 1` (calendar arithmetic is
kept abstract); the dates are otherwise only used for the file name.
The adapter emits no final 100 of its own; it exports only when at
least one record was accumulated. -/
def scrape_boletin_tercera (start_date end_date : PyDate) (D : Nat)
    (env : BolEnv) : RunResult BolRecord :=
  let out := bolDays env.avisos env.parse env.cancel D D 0 0 0
  if out.1.isEmpty then
    { records := out.1, trace := out.2, retval := 0, files := [] }
  else
    { records := out.1, trace := out.2, retval := out.1.length,
      files := [boletin_filename start_date end_date] }

/-! ## Lemmas about `sanitizar_doc_id` -/

theorem mem_collapseWsAux {c : Char} :
    ∀ (l : Str) (b : Bool), c ∈ collapseWsAux l b →
      c = '_' ∨ (c ∈ l ∧ pyIsSpace c = false) := by
  intro l
  induction l with
  | nil => intro b h; simp [collapseWsAux] at h
  | cons a t ih =>
    intro b h
    by_cases ha : pyIsSpace a = true
    · by_cases hb : b = true
      · subst hb
        simp only [collapseWsAux, ha, if_pos rfl] at h
        rcases ih true h with h' | h'
        · exact Or.inl h'
        · exact Or.inr ⟨List.mem_cons_of_mem _ h'.1, h'.2⟩
      · have hb' : b = false := by revert hb; cases b <;> simp
        subst hb'
        simp only [collapseWsAux, ha, if_pos rfl] at h
        rcases List.mem_cons.mp h with h' | h'
        · exact Or.inl h'
        · rcases ih true h' with h'' | h''
          · exact Or.inl h''
          · exact Or.inr ⟨List.mem_cons_of_mem _ h''.1, h''.2⟩
    · have ha' : pyIsSpace a = false := by revert ha; cases pyIsSpace a <;> simp
      simp only [collapseWsAux, ha'] at h
      rcases List.mem_cons.mp h with h' | h'
      · subst h'; exact Or.inr ⟨List.mem_cons_self _ _, ha'⟩
      · rcases ih false h' with h'' | h''
        · exact Or.inl h''
        · exact Or.inr ⟨List.mem_cons_of_mem _ h''.1, h''.2⟩

theorem replChar_slash_backslash (c : Char) :
    replChar '\\' '-' (replChar '/' '-' c) ≠ '/' ∧
      replChar '\\' '-' (replChar '/' '-' c) ≠ '\\' := by
  unfold replChar
  split
  · split <;> simp_all
  · split
    · simp
    · constructor <;> simp_all

theorem sanitizar_chars {c : Char} {s : Str} (h : c ∈ sanitizar_doc_id s) :
    c ≠ '/' ∧ c ≠ '\\' ∧ pyIsSpace c = false := by
  unfold sanitizar_doc_id collapseWs at h
  rcases mem_collapseWsAux _ _ h with h' | h'
  · subst h'; refine ⟨by decide, by decide, by decide⟩
  · rcases h' with ⟨hmem, hsp⟩
    rcases List.mem_map.mp hmem with ⟨c1, hc1, hc1e⟩
    rcases List.mem_map.mp hc1 with ⟨c0, _, hc0e⟩
    subst hc1e; subst hc0e
    exact ⟨(replChar_slash_backslash c0).1, (replChar_slash_backslash c0).2, hsp⟩

theorem dropWhile_eq_self_of_noSpace {l : Str}
    (h : ∀ c ∈ l, pyIsSpace c = false) : l.dropWhile pyIsSpace = l := by
  cases l with
  | nil => rfl
  | cons a t => simp [List.dropWhile, h a (List.mem_cons_self _ _)]

theorem pyStrip_eq_self_of_noSpace {l : Str}
    (h : ∀ c ∈ l, pyIsSpace c = false) : pyStrip l = l := by
  unfold pyStrip
  rw [dropWhile_eq_self_of_noSpace h,
    dropWhile_eq_self_of_noSpace (by intro c hc; exact h c (List.mem_reverse.mp hc)),
    List.reverse_reverse]

theorem map_replChar_eq_self {l : Str} {old new : Char}
    (h : ∀ c ∈ l, c ≠ old) : l.map (replChar old new) = l := by
  induction l with
  | nil => rfl
  | cons a t ih =>
    simp only [List.map_cons]
    rw [ih (by intro c hc; exact h c (List.mem_cons_of_mem _ hc))]
    have : replChar old new a = a := by
      unfold replChar
      simp [h a (List.mem_cons_self _ _)]
    rw [this]

theorem collapseWsAux_eq_self_of_noSpace {l : Str}
    (h : ∀ c ∈ l, pyIsSpace c = false) : ∀ b, collapseWsAux l b = l := by
  induction l with
  | nil => intro b; rfl
  | cons a t ih =>
    intro b
    simp [collapseWsAux, h a (List.mem_cons_self _ _),
      ih (by intro c hc; exact h c (List.mem_cons_of_mem _ hc))]

theorem sanitizar_fixpoint {t : Str}
    (h : ∀ c ∈ t, c ≠ '/' ∧ c ≠ '\\' ∧ pyIsSpace c = false) :
    sanitizar_doc_id t = t := by
  unfold sanitizar_doc_id collapseWs
  rw [pyStrip_eq_self_of_noSpace (fun c hc => (h c hc).2.2),
    map_replChar_eq_self (fun c hc => (h c hc).1),
    map_replChar_eq_self (fun c hc => (h c hc).2.1),
    collapseWsAux_eq_self_of_noSpace (fun c hc => (h c hc).2.2) false]

/-- C4: for every input string, `sanitizar_doc_id` produces an output
containing no `/`, no `\` and no whitespace; it is idempotent; and
`sanitizar_doc_id "14/1-0026 LPR25" = "14-1-0026_LPR25"`. -/
theorem sanitizar_doc_id_spec :
    (∀ s : Str, ∀ c ∈ sanitizar_doc_id s,
      c ≠ '/' ∧ c ≠ '\\' ∧ pyIsSpace c = false)
    ∧ (∀ s : Str, sanitizar_doc_id (sanitizar_doc_id s) = sanitizar_doc_id s)
    ∧ sanitizar_doc_id "14/1-0026 LPR25".toList = "14-1-0026_LPR25".toList := by
  refine ⟨fun s c hc => sanitizar_chars hc, fun s => ?_, by decide⟩
  exact sanitizar_fixpoint (fun c hc => sanitizar_chars hc)

/-- C4 witness: the theorem applied at concrete inputs. -/
theorem sanitizar_doc_id_spec_witness :
    ('-' ≠ '/' ∧ '-' ≠ '\\' ∧ pyIsSpace '-' = false)
    ∧ sanitizar_doc_id (sanitizar_doc_id "a/b c".toList) =
        sanitizar_doc_id "a/b c".toList :=
  ⟨sanitizar_doc_id_spec.1 "a/b c".toList '-' (by decide),
   sanitizar_doc_id_spec.2.1 "a/b c".toList⟩

/-! ## Lemmas about `obtener_anio_desde_fecha` -/

theorem fourDigitRunAt_cons (c : Char) (rest : Str) (i : Nat) :
    fourDigitRunAt (c :: rest) (i + 1) = fourDigitRunAt rest i := rfl

theorem findFourDigits_eq_none {s : Str}
    (h : ∀ i < s.length, fourDigitRunAt s i = false) :
    findFourDigits s = none := by
  induction s with
  | nil => rfl
  | cons c rest ih =>
    have h0 : fourDigitRunAt (c :: rest) 0 = false :=
      h 0 (by simp)
    simp only [findFourDigits, h0, Bool.false_eq_true, if_false]
    exact ih (by
      intro i hi
      rw [← fourDigitRunAt_cons c]
      exact h (i + 1) (by simpa using Nat.succ_lt_succ hi))

theorem findFourDigits_eq_some {s : Str} {i : Nat}
    (h : fourDigitRunAt s i = true)
    (hmin : ∀ j < i, fourDigitRunAt s j = false) :
    findFourDigits s = some ((s.drop i).take 4) := by
  induction s generalizing i with
  | nil => simp [fourDigitRunAt] at h
  | cons c rest ih =>
    cases i with
    | zero =>
      simp only [findFourDigits, h, if_true, List.drop_zero]
    | succ i' =>
      have h0 : fourDigitRunAt (c :: rest) 0 = false :=
        hmin 0 (Nat.succ_pos _)
      simp only [findFourDigits, h0, Bool.false_eq_true, if_false]
      have := ih (i := i') (by rw [← fourDigitRunAt_cons c]; exact h)
        (by
          intro j hj
          rw [← fourDigitRunAt_cons c]
          exact hmin (j + 1) (Nat.succ_lt_succ hj))
      rw [this]
      rfl

/-- C7: `obtener_anio_desde_fecha` yields `none` on non-strings and on
strings without four consecutive decimal digits, never raising; on any
other string it yields the integer value of the leftmost four-digit
window. -/
theorem obtener_anio_spec :
    obtener_anio_desde_fecha PyVal.nonStr = none
    ∧ (∀ s : Str, (∀ i < s.length, fourDigitRunAt s i = false) →
        obtener_anio_desde_fecha (.str s) = none)
    ∧ (∀ (s : Str) (i : Nat), fourDigitRunAt s i = true →
        (∀ j < i, fourDigitRunAt s j = false) →
        obtener_anio_desde_fecha (.str s) =
          some (digitsVal ((s.drop i).take 4))) := by
  refine ⟨rfl, fun s h => ?_, fun s i h hmin => ?_⟩
  · simp [obtener_anio_desde_fecha, findFourDigits_eq_none h]
  · simp [obtener_anio_desde_fecha, findFourDigits_eq_some h hmin]

/-- C7 witness: the theorem applied at concrete inputs. -/
theorem obtener_anio_spec_witness :
    obtener_anio_desde_fecha (.str "sin fecha".toList) = none
    ∧ obtener_anio_desde_fecha (.str "abc2024x".toList) =
        some (digitsVal (("abc2024x".toList.drop 3).take 4)) :=
  ⟨obtener_anio_spec.2.1 "sin fecha".toList (by decide),
   obtener_anio_spec.2.2 "abc2024x".toList 3 (by decide) (by decide)⟩

/-! ## Lemmas about `es_tic` -/

theorem isPrefixOfB_iff : ∀ n h : Str, isPrefixOfB n h = true ↔ n <+: h := by
  intro n
  induction n with
  | nil => intro h; simp [isPrefixOfB]
  | cons a as ih =>
    intro h
    cases h with
    | nil => simp [isPrefixOfB]
    | cons b bs =>
      simp [isPrefixOfB, List.cons_prefix_cons, ih bs, And.comm]

theorem substrB_iff (n : Str) : ∀ h : Str, substrB n h = true ↔ n <:+: h := by
  intro h
  induction h with
  | nil =>
    simp [substrB, List.isEmpty_iff, List.infix_nil]
  | cons c rest ih =>
    simp only [substrB, Bool.or_eq_true, isPrefixOfB_iff, ih,
      List.infix_cons_iff]

theorem es_tic_kw_iff (kw t : Str) :
    ((if (ticNorm kw).length ≤ 2 then false
      else substrB (ticNorm kw) (ticNorm t)) = true) ↔
      (2 < (ticNorm kw).length ∧ ticNorm kw <:+: ticNorm t) := by
  by_cases hle : (ticNorm kw).length ≤ 2
  · simp [hle]
  · simp [hle, substrB_iff]; omega

/-- C5: `es_tic` is true iff some keyword of `TIC_KEYWORDS` whose
accent-stripped, lower-cased form is longer than 2 characters occurs as
a substring of the accent-stripped, lower-cased text; the match is
case- and accent-insensitive by construction; `None` and the empty
string yield false, and the two spec examples classify as stated. -/
theorem es_tic_spec :
    (∀ t : Str, es_tic (some t) = true ↔
      ∃ kw ∈ TIC_KEYWORDS,
        2 < (ticNorm kw).length ∧ ticNorm kw <:+: ticNorm t)
    ∧ es_tic none = false
    ∧ es_tic (some []) = false
    ∧ es_tic (some "Provisión de NOTEBOOKS para oficinas".toList) = true
    ∧ es_tic (some "Compra de resmas de papel".toList) = false := by
  refine ⟨fun t => ?_, rfl, by decide, by decide, by decide⟩
  by_cases ht : t.isEmpty
  · have ht' : t = [] := List.isEmpty_iff.mp ht
    subst ht'
    constructor
    · intro h; simp [es_tic] at h
    · rintro ⟨kw, _, hlen, hinf⟩
      have : ticNorm kw = [] := List.eq_nil_of_infix_nil hinf
      rw [this] at hlen
      simp at hlen
  · simp only [es_tic, ht, Bool.false_eq_true, if_false, List.any_eq_true]
    constructor
    · rintro ⟨kw, hkw, hp⟩
      exact ⟨kw, hkw, (es_tic_kw_iff kw t).mp hp⟩
    · rintro ⟨kw, hkw, hp⟩
      exact ⟨kw, hkw, (es_tic_kw_iff kw t).mpr hp⟩

/-! ## Lemmas about `iter_compras_pages` -/

theorem postbackLoop_eq_range' :
    ∀ (cnt page : Nat) (mp : Option Nat),
      postbackLoop mp page cnt =
        (List.range' page
          (match mp with
           | none => cnt
           | some m => min cnt (m + 1 - page))).map Fetch.postback := by
  intro cnt
  induction cnt with
  | zero => intro page mp; cases mp <;> simp [postbackLoop]
  | succ c ih =>
    intro page mp
    cases mp with
    | none =>
      simp [postbackLoop, maxPagesHit, List.range'_succ, ih]
    | some m =>
      by_cases hm : page > m
      · have h0 : m + 1 - page = 0 := by omega
        simp [postbackLoop, maxPagesHit, hm, h0]
      · have h1 : min (c + 1) (m + 1 - page) = min c (m + 1 - (page + 1)) + 1 := by
          omega
        simp only [postbackLoop, maxPagesHit, decide_eq_true_eq, hm,
          if_false, ih, h1, List.range'_succ, List.map_cons]

/-- C8 (amended): when the first listing page has no simple pager
links, a detected total `tr` and a non-zero page size, the walker
computes the expected page count as `(tr + size - 1) / size` (the
ceiling of `tr / size`) and performs postback fetches for pages 2
through that count, stopping early at the caller's `max_pages`; with no
pager target, or an expected count of at most 1, only page 1 is
fetched. -/
theorem iter_compras_pages_spec :
    ∀ (page1 : ListingPage) (mp : Option Nat) (tr : Nat),
      page1.simpleLinks = [] → page1.totalResults = some tr →
      0 < page1.numRows →
      iter_compras_pages page1 mp =
        Fetch.first ::
          (match page1.pagerTarget with
           | none => []
           | some _ =>
             (List.range' 2
               (match mp with
                | none => (tr + page1.numRows - 1) / page1.numRows - 1
                | some m =>
                  min ((tr + page1.numRows - 1) / page1.numRows - 1)
                    (m - 1))).map Fetch.postback) := by
  intro page1 mp tr hsl htr hP
  rcases page1 with ⟨otr, P, links, tgt⟩
  simp only at hsl htr hP
  subst hsl htr
  have hP' : P ≠ 0 := Nat.pos_iff_ne_zero.mp hP
  cases tgt with
  | none => simp [iter_compras_pages, hP']
  | some t =>
    by_cases htp : (tr + P - 1) / P ≤ 1
    · have h0 : (tr + P - 1) / P - 1 = 0 := by omega
      cases mp <;> simp [iter_compras_pages, hP', htp, h0]
    · have h2 : ∀ m : Nat, m + 1 - 2 = m - 1 := by omega
      cases mp with
      | none =>
        simp [iter_compras_pages, hP', htp, postbackLoop_eq_range']
      | some m =>
        simp [iter_compras_pages, hP', htp, postbackLoop_eq_range', h2]

/-- First listing page used in the C8 counterexample: total 30, page
size 10, one simple pager link, no postback pager target. -/
def cexListingPage : ListingPage := ⟨some 30, 10, [7], none⟩

/-- C8 counterexample: on a first page with a detected total (30), a
non-zero page size (10) and no pager target, the walker does not return
only page 1 as the claim states: it follows the simple pager link. -/
theorem iter_compras_pages_cex :
    cexListingPage.totalResults = some 30 ∧ cexListingPage.numRows = 10 ∧
    cexListingPage.pagerTarget = none ∧
    iter_compras_pages cexListingPage none = [Fetch.first, Fetch.simple 7] ∧
    iter_compras_pages cexListingPage none ≠ [Fetch.first] := by decide

/-- Listing page used in the C8 witness. -/
def wListingPage : ListingPage := ⟨some 25, 10, [], some 0⟩

/-- C8 witness: the amended theorem applied at a concrete page with 25
results, page size 10 (3 expected pages) and `max_pages = 2`. -/
theorem iter_compras_pages_spec_witness :
    iter_compras_pages wListingPage (some 2) =
      [Fetch.first, Fetch.postback 2] :=
  iter_compras_pages_spec wListingPage (some 2) 25 rfl rfl (by decide)

/-! ## Date independence and the robot page bound -/

theorem comprar_run_dates (env : ComprarEnv) (d1 d2 d1' d2' : PyDate) :
    (scrape_comprar_tics d1 d2 env).records =
      (scrape_comprar_tics d1' d2' env).records
    ∧ (scrape_comprar_tics d1 d2 env).trace =
      (scrape_comprar_tics d1' d2' env).trace
    ∧ (scrape_comprar_tics d1 d2 env).retval =
      (scrape_comprar_tics d1' d2' env).retval
    ∧ (scrape_comprar_tics d1 d2 env).files.length =
      (scrape_comprar_tics d1' d2' env).files.length := by
  simp only [scrape_comprar_tics]
  split_ifs <;> simp

theorem robot_run_dates (env : RobotEnv) (d1 d2 d1' d2' : PyDate) :
    (scrape_comprar_tics_robot d1 d2 env).records =
      (scrape_comprar_tics_robot d1' d2' env).records
    ∧ (scrape_comprar_tics_robot d1 d2 env).trace =
      (scrape_comprar_tics_robot d1' d2' env).trace
    ∧ (scrape_comprar_tics_robot d1 d2 env).retval =
      (scrape_comprar_tics_robot d1' d2' env).retval
    ∧ (scrape_comprar_tics_robot d1 d2 env).files.length =
      (scrape_comprar_tics_robot d1' d2' env).files.length := by
  simp only [scrape_comprar_tics_robot]
  split_ifs <;> simp

/-- C9: for the two COMPR.AR adapters, two runs with different date
ranges but the same environment (same fetched pages, same cancel
behaviour) produce identical record lists, traces and returned counts,
and the same number of output files: the dates only influence the
output file names. -/
theorem dates_influence_only_filename :
    ∀ (env : ComprarEnv) (envR : RobotEnv) (d1 d2 d1' d2' : PyDate),
      ((scrape_comprar_tics d1 d2 env).records =
          (scrape_comprar_tics d1' d2' env).records
        ∧ (scrape_comprar_tics d1 d2 env).retval =
          (scrape_comprar_tics d1' d2' env).retval
        ∧ (scrape_comprar_tics d1 d2 env).trace =
          (scrape_comprar_tics d1' d2' env).trace
        ∧ (scrape_comprar_tics d1 d2 env).files.length =
          (scrape_comprar_tics d1' d2' env).files.length)
      ∧ ((scrape_comprar_tics_robot d1 d2 envR).records =
          (scrape_comprar_tics_robot d1' d2' envR).records
        ∧ (scrape_comprar_tics_robot d1 d2 envR).retval =
          (scrape_comprar_tics_robot d1' d2' envR).retval
        ∧ (scrape_comprar_tics_robot d1 d2 envR).trace =
          (scrape_comprar_tics_robot d1' d2' envR).trace
        ∧ (scrape_comprar_tics_robot d1 d2 envR).files.length =
          (scrape_comprar_tics_robot d1' d2' envR).files.length) := by
  intro env envR d1 d2 d1' d2'
  obtain ⟨hc1, hc2, hc3, hc4⟩ := comprar_run_dates env d1 d2 d1' d2'
  obtain ⟨hr1, hr2, hr3, hr4⟩ := robot_run_dates envR d1 d2 d1' d2'
  exact ⟨⟨hc1, hc3, hc2, hc4⟩, ⟨hr1, hr3, hr2, hr4⟩⟩

theorem ejecutar_robot_take_one (env : RobotEnv) :
    ejecutar_robot (some 1) env =
      ejecutar_robot (some 1) { env with pages := env.pages.take 1 } := by
  unfold ejecutar_robot
  cases hp : env.pages with
  | nil => rfl
  | cons p rest =>
    show botOuter env.detail env.cancel (some 1) (p :: rest) 1 0 0 =
      botOuter env.detail env.cancel (some 1) ((p :: rest).take 1) 1 0 0
    by_cases he : p.isEmpty
    · simp [botOuter, he]
    · simp [botOuter, he, maxPagesHit]

/-- C10: `scrape_comprar_tics_robot` hard-codes `max_paginas = 1`, so a
run only ever processes the first listing page: its whole observable
result coincides with the run on the environment truncated to the first
page, and likewise for `ejecutar_robot` itself when called with
`max_paginas = 1`. -/
theorem robot_wrapper_first_page_only :
    ∀ (env : RobotEnv) (d1 d2 : PyDate),
      scrape_comprar_tics_robot d1 d2 env =
        scrape_comprar_tics_robot d1 d2 { env with pages := env.pages.take 1 }
      ∧ ejecutar_robot (some 1) env =
        ejecutar_robot (some 1) { env with pages := env.pages.take 1 } := by
  intro env d1 d2
  refine ⟨?_, ejecutar_robot_take_one env⟩
  simp only [scrape_comprar_tics_robot, ejecutar_robot_take_one env]

/-! ## Export behaviour (files and zero-record runs) -/

theorem comprar_files_cases (env : ComprarEnv) (d1 d2 : PyDate) :
    ((scrape_comprar_tics d1 d2 env).records = [] →
      (scrape_comprar_tics d1 d2 env).files = []
      ∧ (scrape_comprar_tics d1 d2 env).retval = 0)
    ∧ ((scrape_comprar_tics d1 d2 env).records ≠ [] →
      (scrape_comprar_tics d1 d2 env).files = [comprar_filename d1 d2]) := by
  simp only [scrape_comprar_tics]
  split_ifs with h1 h2 <;> constructor <;> intro h <;> simp_all

theorem robot_files_cases (env : RobotEnv) (d1 d2 : PyDate) :
    ((scrape_comprar_tics_robot d1 d2 env).records = [] →
      (scrape_comprar_tics_robot d1 d2 env).files = []
      ∧ (scrape_comprar_tics_robot d1 d2 env).retval = 0)
    ∧ ((scrape_comprar_tics_robot d1 d2 env).records ≠ [] →
      (scrape_comprar_tics_robot d1 d2 env).files = [robot_filename d1 d2]) := by
  simp only [scrape_comprar_tics_robot]
  split_ifs with h1 <;> constructor <;> intro h <;> simp_all

theorem boletin_files_cases (env : BolEnv) (D : Nat) (d1 d2 : PyDate) :
    ((scrape_boletin_tercera d1 d2 D env).records = [] →
      (scrape_boletin_tercera d1 d2 D env).files = []
      ∧ (scrape_boletin_tercera d1 d2 D env).retval = 0)
    ∧ ((scrape_boletin_tercera d1 d2 D env).records ≠ [] →
      (scrape_boletin_tercera d1 d2 D env).files = [boletin_filename d1 d2]) := by
  simp only [scrape_boletin_tercera]
  split_ifs with h1 <;> constructor <;> intro h <;> simp_all

theorem strftime_infix_comprar (d1 d2 : PyDate) :
    strftimeYMD d1 <:+: comprar_filename d1 d2
    ∧ strftimeYMD d2 <:+: comprar_filename d1 d2 :=
  ⟨⟨"comprar_tics_".toList,
    "_".toList ++ strftimeYMD d2 ++ ".xlsx".toList,
    by simp [comprar_filename]⟩,
   ⟨"comprar_tics_".toList ++ strftimeYMD d1 ++ "_".toList,
    ".xlsx".toList, by simp [comprar_filename]⟩⟩

theorem strftime_infix_robot (d1 d2 : PyDate) :
    strftimeYMD d1 <:+: robot_filename d1 d2
    ∧ strftimeYMD d2 <:+: robot_filename d1 d2 :=
  ⟨⟨"comprar_selenium_".toList,
    "_".toList ++ strftimeYMD d2 ++ ".xlsx".toList,
    by simp [robot_filename]⟩,
   ⟨"comprar_selenium_".toList ++ strftimeYMD d1 ++ "_".toList,
    ".xlsx".toList, by simp [robot_filename]⟩⟩

theorem strftime_infix_boletin (d1 d2 : PyDate) :
    strftimeYMD d1 <:+: boletin_filename d1 d2
    ∧ strftimeYMD d2 <:+: boletin_filename d1 d2 :=
  ⟨⟨"contrataciones_tercera_".toList,
    "_".toList ++ strftimeYMD d2 ++ ".xlsx".toList,
    by simp [boletin_filename]⟩,
   ⟨"contrataciones_tercera_".toList ++ strftimeYMD d1 ++ "_".toList,
    ".xlsx".toList, by simp [boletin_filename]⟩⟩

/-- C6: for each adapter, a run completing with zero records writes no
file and returns 0; a run completing with at least one record writes
exactly one spreadsheet file, whose name contains both formatted dates
of the resolved range. -/
theorem export_file_iff_records :
    ∀ (env : ComprarEnv) (envR : RobotEnv) (envB : BolEnv) (D : Nat)
      (d1 d2 : PyDate),
      (((scrape_comprar_tics d1 d2 env).records = [] →
          (scrape_comprar_tics d1 d2 env).files = []
          ∧ (scrape_comprar_tics d1 d2 env).retval = 0)
        ∧ ((scrape_comprar_tics d1 d2 env).records ≠ [] →
          (scrape_comprar_tics d1 d2 env).files = [comprar_filename d1 d2]
          ∧ strftimeYMD d1 <:+: comprar_filename d1 d2
          ∧ strftimeYMD d2 <:+: comprar_filename d1 d2))
      ∧ (((scrape_comprar_tics_robot d1 d2 envR).records = [] →
          (scrape_comprar_tics_robot d1 d2 envR).files = []
          ∧ (scrape_comprar_tics_robot d1 d2 envR).retval = 0)
        ∧ ((scrape_comprar_tics_robot d1 d2 envR).records ≠ [] →
          (scrape_comprar_tics_robot d1 d2 envR).files = [robot_filename d1 d2]
          ∧ strftimeYMD d1 <:+: robot_filename d1 d2
          ∧ strftimeYMD d2 <:+: robot_filename d1 d2))
      ∧ (((scrape_boletin_tercera d1 d2 D envB).records = [] →
          (scrape_boletin_tercera d1 d2 D envB).files = []
          ∧ (scrape_boletin_tercera d1 d2 D envB).retval = 0)
        ∧ ((scrape_boletin_tercera d1 d2 D envB).records ≠ [] →
          (scrape_boletin_tercera d1 d2 D envB).files = [boletin_filename d1 d2]
          ∧ strftimeYMD d1 <:+: boletin_filename d1 d2
          ∧ strftimeYMD d2 <:+: boletin_filename d1 d2)) := by
  intro env envR envB D d1 d2
  refine ⟨⟨(comprar_files_cases env d1 d2).1, fun h => ?_⟩,
    ⟨(robot_files_cases envR d1 d2).1, fun h => ?_⟩,
    ⟨(boletin_files_cases envB D d1 d2).1, fun h => ?_⟩⟩
  · exact ⟨(comprar_files_cases env d1 d2).2 h,
      (strftime_infix_comprar d1 d2).1, (strftime_infix_comprar d1 d2).2⟩
  · exact ⟨(robot_files_cases envR d1 d2).2 h,
      (strftime_infix_robot d1 d2).1, (strftime_infix_robot d1 d2).2⟩
  · exact ⟨(boletin_files_cases envB D d1 d2).2 h,
      (strftime_infix_boletin d1 d2).1, (strftime_infix_boletin d1 d2).2⟩

/-- Zero-record environments for the C6 witness. -/
def wC6ComprarZero : ComprarEnv := ⟨[], fun _ => .fail, fun _ => false⟩

def wC6RobotZero : RobotEnv := ⟨[], fun _ => .fail, fun _ => false⟩

def wC6BolZero : BolEnv := ⟨fun _ => [], fun _ => .exn, fun _ => false⟩

/-- One-row environments for the C6 witness. -/
def wC6Row : ListRow :=
  ⟨['P'], some ['N'], some ['T'], some ['F'], some ['E'], some ['U'],
   some ['S'], some ['u']⟩

def wC6Comprar : ComprarEnv := ⟨[[wC6Row]], fun _ => .fail, fun _ => false⟩

def wC6BotRow : BotRow :=
  ⟨['P'], some ['O'], some ['T'], some ['F'], some ['E'], some ['U'],
   some ['S']⟩

def wC6Robot : RobotEnv :=
  ⟨[[wC6BotRow]], fun _ => .ok emptyDetail, fun _ => false⟩

def wC6Bol : BolEnv :=
  ⟨fun _ => [⟨['t'], ['u'], ['f']⟩],
   fun _ => .ok ⟨none, none, none, none, none, ['u']⟩, fun _ => false⟩

def wD1 : PyDate := ⟨2025, 3, 1⟩

def wD2 : PyDate := ⟨2025, 3, 31⟩

/-- C6 witness: the theorem applied at concrete zero-record and
one-record runs of each adapter. -/
theorem export_file_iff_records_witness :
    ((scrape_comprar_tics wD1 wD2 wC6ComprarZero).files = []
      ∧ (scrape_comprar_tics wD1 wD2 wC6ComprarZero).retval = 0)
    ∧ ((scrape_comprar_tics wD1 wD2 wC6Comprar).files =
        [comprar_filename wD1 wD2]
      ∧ strftimeYMD wD1 <:+: comprar_filename wD1 wD2
      ∧ strftimeYMD wD2 <:+: comprar_filename wD1 wD2)
    ∧ ((scrape_comprar_tics_robot wD1 wD2 wC6RobotZero).files = []
      ∧ (scrape_comprar_tics_robot wD1 wD2 wC6RobotZero).retval = 0)
    ∧ ((scrape_comprar_tics_robot wD1 wD2 wC6Robot).files =
        [robot_filename wD1 wD2]
      ∧ strftimeYMD wD1 <:+: robot_filename wD1 wD2
      ∧ strftimeYMD wD2 <:+: robot_filename wD1 wD2)
    ∧ ((scrape_boletin_tercera wD1 wD2 1 wC6BolZero).files = []
      ∧ (scrape_boletin_tercera wD1 wD2 1 wC6BolZero).retval = 0)
    ∧ ((scrape_boletin_tercera wD1 wD2 1 wC6Bol).files =
        [boletin_filename wD1 wD2]
      ∧ strftimeYMD wD1 <:+: boletin_filename wD1 wD2
      ∧ strftimeYMD wD2 <:+: boletin_filename wD1 wD2) :=
  ⟨(export_file_iff_records wC6ComprarZero wC6RobotZero wC6BolZero 1
      wD1 wD2).1.1 (by decide),
   (export_file_iff_records wC6Comprar wC6Robot wC6Bol 1
      wD1 wD2).1.2 (by decide),
   (export_file_iff_records wC6ComprarZero wC6RobotZero wC6BolZero 1
      wD1 wD2).2.1.1 (by decide),
   (export_file_iff_records wC6Comprar wC6Robot wC6Bol 1
      wD1 wD2).2.1.2 (by decide),
   (export_file_iff_records wC6ComprarZero wC6RobotZero wC6BolZero 1
      wD1 wD2).2.2.1 (by decide),
   (export_file_iff_records wC6Comprar wC6Robot wC6Bol 1
      wD1 wD2).2.2.2 (by decide)⟩

/-! ## Per-row characterisation of `scrape_comprar_tics` -/

theorem comprarDetailData_fail {detail : Nat → DetailFetch} {i : Nat}
    {row : ListRow} (h : detail i = .fail) :
    comprarDetailData detail i row = emptyDetail := by
  unfold comprarDetailData
  cases hu : row.detalle_url with
  | none => split <;> simp [h, DetailFetch.data]
  | some u => simp [h, DetailFetch.data]

/-- The record list produced when no cancellation occurs: one merged
record per listing row, in order. -/
def comprarAll (detail : Nat → DetailFetch) :
    List ListRow → Nat → List Record
  | [], _ => []
  | row :: rest, i =>
    mergeComprar row (comprarDetailData detail i row) ::
      comprarAll detail rest (i + 1)

theorem comprarLoop_no_cancel {detail : Nat → DetailFetch}
    {cancel : Nat → Bool} (hc : ∀ k, cancel k = false) (total : Nat) :
    ∀ (rows : List ListRow) (i : Nat),
      (comprarLoop detail cancel total rows i).1 = comprarAll detail rows i := by
  intro rows
  induction rows with
  | nil => intro i; rfl
  | cons row rest ih =>
    intro i
    simp [comprarLoop, comprarAll, hc i, ih (i + 1)]

theorem comprarAll_length (detail : Nat → DetailFetch) :
    ∀ (rows : List ListRow) (i : Nat),
      (comprarAll detail rows i).length = rows.length := by
  intro rows
  induction rows with
  | nil => intro i; rfl
  | cons row rest ih => intro i; simp [comprarAll, ih (i + 1)]

theorem comprarAll_getElem (detail : Nat → DetailFetch) :
    ∀ (rows : List ListRow) (i j : Nat),
      (comprarAll detail rows i)[j]? =
        (rows[j]?).map
          (fun row => mergeComprar row (comprarDetailData detail (i + j) row)) := by
  intro rows
  induction rows with
  | nil => intro i j; simp [comprarAll]
  | cons row rest ih =>
    intro i j
    cases j with
    | zero => simp [comprarAll]
    | succ j' =>
      simp only [comprarAll, List.getElem?_cons_succ, ih (i + 1) j']
      have : i + 1 + j' = i + (j' + 1) := by omega
      rw [this]

theorem comprar_records_no_cancel (env : ComprarEnv) (d1 d2 : PyDate)
    (hc : ∀ k, env.cancel k = false) :
    (scrape_comprar_tics d1 d2 env).records =
      comprarAll env.detail env.pages.flatten 0 := by
  simp only [scrape_comprar_tics]
  split_ifs with h1 h2
  · rw [List.length_eq_zero.mp h1]; rfl
  · exact comprarLoop_no_cancel hc _ _ _
  · exact comprarLoop_no_cancel hc _ _ _

/-! ## C1 scenario: two pages of 12 and 3 rows, row 7 fails -/

def scnRow (k : Nat) : ListRow :=
  ⟨['P', Char.ofNat (65 + k)], some ['N', Char.ofNat (65 + k)], some ['T'],
   some ['F'], some ['E'], some ['U'], some ['S'],
   some ['u', Char.ofNat (65 + k)]⟩

def scnDetail (k : Nat) : Detail :=
  ⟨some ['D', Char.ofNat (65 + k)], some ['x'], some ['n'], some ['t'],
   some ['f'], some ['e'], some ['q'], some ['s'], some ['d'], some ['p'],
   some ['w'], some ['U', Char.ofNat (65 + k)]⟩

/-- The C1 end-to-end scenario environment: a first listing page of 12
rows and a second of 3 rows, where the detail fetch of row 7 (0-based
index 6) throws and every other one succeeds, with no cancellation. -/
def scnEnv : ComprarEnv :=
  { pages := [(List.range 12).map scnRow, (List.range' 12 3).map scnRow]
    detail := fun i => if i = 6 then .fail else .ok (scnDetail i)
    cancel := fun _ => false }

/-- C1 (amended): in `scrape_comprar_tics`, a listing row whose detail
fetch throws (or whose detail cannot be resolved) is still retained,
with listing-only field values, and the run continues: an uncancelled
run appends exactly one record per listing row, and the record of every
failing row is the listing-only merge.  In the two-page 12+3-row
scenario with row 7 failing, all 15 records are produced (14 merged
with detail data, row 7 retained listing-only), the run returns 15 and
the final progress report is 100.  (`ejecutar_robot` instead drops such
rows; see the counterexample.) -/
theorem comprar_retains_listing_on_detail_failure :
    (∀ (env : ComprarEnv) (d1 d2 : PyDate),
      (∀ k, env.cancel k = false) →
      (scrape_comprar_tics d1 d2 env).records.length =
        env.pages.flatten.length
      ∧ ∀ i : Nat, env.detail i = DetailFetch.fail →
          (scrape_comprar_tics d1 d2 env).records[i]? =
            (env.pages.flatten[i]?).map
              (fun row => mergeComprar row emptyDetail))
    ∧ (scrape_comprar_tics wD1 wD2 scnEnv).retval = 15
    ∧ (scrape_comprar_tics wD1 wD2 scnEnv).records.length = 15
    ∧ (scrape_comprar_tics wD1 wD2 scnEnv).records[6]? =
        some (mergeComprar (scnRow 6) emptyDetail)
    ∧ (∀ i < 15, i ≠ 6 →
        (scrape_comprar_tics wD1 wD2 scnEnv).records[i]? =
          some (mergeComprar (scnRow i) (scnDetail i)))
    ∧ (scrape_comprar_tics wD1 wD2 scnEnv).trace.getLast? = some 100 := by
  refine ⟨fun env d1 d2 hc => ?_, by decide, by decide, by decide,
    by decide, by decide⟩
  rw [comprar_records_no_cancel env d1 d2 hc]
  refine ⟨comprarAll_length env.detail _ 0, fun i hfail => ?_⟩
  rw [comprarAll_getElem env.detail _ 0 i]
  have hz : 0 + i = i := by omega
  rw [hz]
  cases env.pages.flatten[i]? with
  | none => rfl
  | some row => simp [comprarDetailData_fail hfail]

/-- C1 witness: the universally quantified part of the theorem applied
to the scenario environment. -/
theorem comprar_retains_listing_witness :
    (scrape_comprar_tics wD1 wD2 scnEnv).records.length =
      scnEnv.pages.flatten.length
    ∧ (scrape_comprar_tics wD1 wD2 scnEnv).records[6]? =
        (scnEnv.pages.flatten[6]?).map
          (fun row => mergeComprar row emptyDetail) :=
  ⟨(comprar_retains_listing_on_detail_failure.1 scnEnv wD1 wD2
      (fun _ => rfl)).1,
   (comprar_retains_listing_on_detail_failure.1 scnEnv wD1 wD2
      (fun _ => rfl)).2 6 (by decide)⟩

/-- The robot-adapter environment of the C1 counterexample: one listing
page with one row whose detail visit fails, no cancellation. -/
def cexRobotEnv : RobotEnv :=
  ⟨[[⟨['P'], some ['O'], some ['T'], some ['F'], some ['E'], some ['U'],
      some ['S']⟩]],
   fun _ => .fail, fun _ => false⟩

/-- C1 counterexample: in `ejecutar_robot` (and hence in
`scrape_comprar_tics_robot`) a row whose detail fetch throws is
skipped, not retained: a one-row listing whose only detail fetch fails
produces no record at all, refuting the claim for the robot adapter. -/
theorem robot_drops_failed_detail_row :
    cexRobotEnv.pages.flatten.length = 1
    ∧ cexRobotEnv.detail 0 = DetailFetch.fail
    ∧ (ejecutar_robot (some 1) cexRobotEnv).1 = []
    ∧ (scrape_comprar_tics_robot wD1 wD2 cexRobotEnv).records = []
    ∧ (scrape_comprar_tics_robot wD1 wD2 cexRobotEnv).retval = 0 := by
  decide

/-! ## Cancellation: partial results are a prefix of the full run -/

/-- The always-false cancel predicate (a run that is never cancelled). -/
def neverCancel : Nat → Bool := fun _ => false

/-- A cancel predicate that becomes and stays true: once a poll
observes `true`, every later poll does too. -/
def cancelMono (f : Nat → Bool) : Prop :=
  ∀ i j, i ≤ j → f i = true → f j = true

theorem comprar_records_proj (env : ComprarEnv) (d1 d2 : PyDate) :
    (scrape_comprar_tics d1 d2 env).records =
      (comprarLoop env.detail env.cancel env.pages.flatten.length
        env.pages.flatten 0).1 := by
  simp only [scrape_comprar_tics]
  split_ifs with h1 h2
  · rw [List.length_eq_zero.mp h1]; rfl
  · rfl
  · rfl

theorem comprar_retval_eq_length (env : ComprarEnv) (d1 d2 : PyDate) :
    (scrape_comprar_tics d1 d2 env).retval =
      (scrape_comprar_tics d1 d2 env).records.length := by
  simp only [scrape_comprar_tics]
  split_ifs with h1 h2 <;> simp_all

theorem comprarLoop_cancel_pre (detail : Nat → DetailFetch)
    (cancel : Nat → Bool) (total : Nat) :
    ∀ (rows : List ListRow) (i : Nat),
      (comprarLoop detail cancel total rows i).1 <+:
        (comprarLoop detail neverCancel total rows i).1 := by
  intro rows
  induction rows with
  | nil => intro i; exact List.nil_prefix
  | cons row rest ih =>
    intro i
    by_cases h : cancel i = true
    · simp only [comprarLoop, h, if_true]
      exact List.nil_prefix
    · have h' : cancel i = false := by revert h; cases cancel i <;> simp
      simp only [comprarLoop, h', neverCancel, Bool.false_eq_true, if_false]
      exact List.cons_prefix_cons.mpr ⟨rfl, ih (i + 1)⟩

theorem botRows_registros_pre (detail : Nat → DetailFetch)
    (cancel : Nat → Bool) :
    ∀ (l : List BotRow) (i tp : Nat),
      (botRows detail cancel l i tp).registros <+:
        (botRows detail neverCancel l i tp).registros := by
  intro l
  induction l with
  | nil => intro i tp; exact List.prefix_refl _
  | cons fila rest ih =>
    intro i tp
    by_cases h : cancel i = true
    · simp only [botRows, h, if_true]
      exact List.nil_prefix
    · have h' : cancel i = false := by revert h; cases cancel i <;> simp
      simp only [botRows, h', neverCancel, Bool.false_eq_true, if_false]
      cases detail i with
      | fail => exact ih (i + 1) tp
      | ok d => exact List.cons_prefix_cons.mpr ⟨rfl, ih (i + 1) (tp + 1)⟩

theorem botRows_never_not_cancelled (detail : Nat → DetailFetch) :
    ∀ (l : List BotRow) (i tp : Nat),
      (botRows detail neverCancel l i tp).cancelled = false := by
  intro l
  induction l with
  | nil => intro i tp; rfl
  | cons fila rest ih =>
    intro i tp
    simp only [botRows, neverCancel, Bool.false_eq_true, if_false]
    cases detail i with
    | fail => exact ih (i + 1) tp
    | ok d => exact ih (i + 1) (tp + 1)

theorem botRows_no_cancel_eq (detail : Nat → DetailFetch)
    (cancel : Nat → Bool) :
    ∀ (l : List BotRow) (i tp : Nat),
      (botRows detail cancel l i tp).cancelled = false →
      botRows detail cancel l i tp = botRows detail neverCancel l i tp := by
  intro l
  induction l with
  | nil => intro i tp _; rfl
  | cons fila rest ih =>
    intro i tp hnc
    by_cases h : cancel i = true
    · simp [botRows, h] at hnc
    · have h' : cancel i = false := by revert h; cases cancel i <;> simp
      simp only [botRows, h', neverCancel, Bool.false_eq_true, if_false] at hnc ⊢
      cases hd : detail i with
      | fail =>
        rw [hd] at hnc
        exact ih (i + 1) tp hnc
      | ok d =>
        rw [hd] at hnc
        simp only at hnc
        rw [ih (i + 1) (tp + 1) hnc]

theorem pre_append_of_pre {α : Type} {l a b : List α} (h : a <+: b) :
    l ++ a <+: l ++ b := by
  obtain ⟨t, ht⟩ := h
  exact ⟨t, by rw [List.append_assoc, ht]⟩

theorem botOuter_cancel_pre (detail : Nat → DetailFetch)
    (cancel : Nat → Bool) (mp : Option Nat) :
    ∀ (pages : List (List BotRow)) (pagina i tp : Nat),
      (botOuter detail cancel mp pages pagina i tp).1 <+:
        (botOuter detail neverCancel mp pages pagina i tp).1 := by
  intro pages
  induction pages with
  | nil => intro pagina i tp; exact List.prefix_refl _
  | cons page rest ih =>
    intro pagina i tp
    by_cases he : page.isEmpty
    · simp [botOuter, he]
    · have hC := botRows_never_not_cancelled detail page i tp
      by_cases hc : (botRows detail cancel page i tp).cancelled = true
      · simp only [botOuter, he, Bool.false_eq_true, if_false, hc, if_true,
          hC]
        refine List.IsPrefix.trans (botRows_registros_pre detail cancel page i tp) ?_
        by_cases hm : maxPagesHit mp (pagina + 1) = true
        · simp [hm]
        · have hm' : maxPagesHit mp (pagina + 1) = false := by
            revert hm; cases maxPagesHit mp (pagina + 1) <;> simp
          by_cases hr : rest.isEmpty
          · simp [hm', hr]
          · simp only [hm', Bool.false_eq_true, if_false, hr]
            exact List.prefix_append _ _
      · have hc' : (botRows detail cancel page i tp).cancelled = false := by
          revert hc; cases (botRows detail cancel page i tp).cancelled <;> simp
        have heq := botRows_no_cancel_eq detail cancel page i tp hc'
        simp only [botOuter, he, Bool.false_eq_true, if_false, heq, hC]
        by_cases hm : maxPagesHit mp (pagina + 1) = true
        · simp [hm]
        · have hm' : maxPagesHit mp (pagina + 1) = false := by
            revert hm; cases maxPagesHit mp (pagina + 1) <;> simp
          by_cases hr : rest.isEmpty
          · simp [hm', hr]
          · simp only [hm', Bool.false_eq_true, if_false, hr]
            exact pre_append_of_pre (ih (pagina + 1) _ _)

theorem bolAvisos_registros_pre (parse : Nat → ParseFetch)
    (cancel : Nat → Bool) (D d n : Nat) :
    ∀ (l : List Aviso) (idx i p : Nat),
      (bolAvisos parse cancel D d n l idx i p).registros <+:
        (bolAvisos parse neverCancel D d n l idx i p).registros := by
  intro l
  induction l with
  | nil => intro idx i p; exact List.prefix_refl _
  | cons av rest ih =>
    intro idx i p
    by_cases h : cancel p = true
    · simp only [bolAvisos, h, if_true]
      exact List.nil_prefix
    · have h' : cancel p = false := by revert h; cases cancel p <;> simp
      simp only [bolAvisos, h', neverCancel, Bool.false_eq_true, if_false]
      cases parse i with
      | exn => exact ih (idx + 1) (i + 1) (p + 1)
      | ok dat => exact List.cons_prefix_cons.mpr ⟨rfl, ih (idx + 1) (i + 1) (p + 1)⟩

theorem bolAvisos_never_not_cancelled (parse : Nat → ParseFetch)
    (D d n : Nat) :
    ∀ (l : List Aviso) (idx i p : Nat),
      (bolAvisos parse neverCancel D d n l idx i p).cancelled = false := by
  intro l
  induction l with
  | nil => intro idx i p; rfl
  | cons av rest ih =>
    intro idx i p
    simp only [bolAvisos, neverCancel, Bool.false_eq_true, if_false]
    cases parse i with
    | exn => exact ih (idx + 1) (i + 1) (p + 1)
    | ok dat => exact ih (idx + 1) (i + 1) (p + 1)

theorem bolAvisos_no_cancel_eq (parse : Nat → ParseFetch)
    (cancel : Nat → Bool) (D d n : Nat) :
    ∀ (l : List Aviso) (idx i p : Nat),
      (bolAvisos parse cancel D d n l idx i p).cancelled = false →
      bolAvisos parse cancel D d n l idx i p =
        bolAvisos parse neverCancel D d n l idx i p := by
  intro l
  induction l with
  | nil => intro idx i p _; rfl
  | cons av rest ih =>
    intro idx i p hnc
    by_cases h : cancel p = true
    · simp [bolAvisos, h] at hnc
    · have h' : cancel p = false := by revert h; cases cancel p <;> simp
      simp only [bolAvisos, h', neverCancel, Bool.false_eq_true, if_false] at hnc ⊢
      cases hd : parse i with
      | exn =>
        rw [hd] at hnc
        exact ih (idx + 1) (i + 1) (p + 1) hnc
      | ok dat =>
        rw [hd] at hnc
        simp only at hnc
        rw [ih (idx + 1) (i + 1) (p + 1) hnc]

theorem bolAvisos_cancelled_poll {parse : Nat → ParseFetch}
    {cancel : Nat → Bool} (hm : cancelMono cancel) (D d n : Nat) :
    ∀ (l : List Aviso) (idx i p : Nat),
      (bolAvisos parse cancel D d n l idx i p).cancelled = true →
      cancel (bolAvisos parse cancel D d n l idx i p).nextPoll = true := by
  intro l
  induction l with
  | nil => intro idx i p h; exact absurd h (by simp [bolAvisos])
  | cons av rest ih =>
    intro idx i p h
    by_cases hp : cancel p = true
    · simp only [bolAvisos, hp, if_true]
      exact hm p (p + 1) (Nat.le_succ p) hp
    · have hp' : cancel p = false := by revert hp; cases cancel p <;> simp
      simp only [bolAvisos, hp', Bool.false_eq_true, if_false] at h ⊢
      cases hd : parse i with
      | exn =>
        rw [hd] at h
        exact ih (idx + 1) (i + 1) (p + 1) h
      | ok dat =>
        rw [hd] at h
        simp only at h
        exact ih (idx + 1) (i + 1) (p + 1) h

theorem bolDays_cancel_pre (avisos : Nat → List Aviso)
    (parse : Nat → ParseFetch) {cancel : Nat → Bool}
    (hm : cancelMono cancel) (D : Nat) :
    ∀ (daysLeft d i p : Nat),
      (bolDays avisos parse cancel D daysLeft d i p).1 <+:
        (bolDays avisos parse neverCancel D daysLeft d i p).1 := by
  intro daysLeft
  induction daysLeft with
  | zero => intro d i p; exact List.prefix_refl _
  | succ rest ih =>
    intro d i p
    by_cases hp : cancel p = true
    · simp only [bolDays, hp, if_true]
      exact List.nil_prefix
    · have hp' : cancel p = false := by revert hp; cases cancel p <;> simp
      simp only [bolDays, hp', neverCancel, Bool.false_eq_true, if_false]
      by_cases hn : (avisos d).length = 0
      · simp only [hn, if_pos rfl]
        exact ih (d + 1) i (p + 1)
      · simp only [hn, Bool.false_eq_true, if_false]
        by_cases hoc : (bolAvisos parse cancel D d (avisos d).length
            (avisos d) 1 i (p + 1)).cancelled = true
        · rw [if_pos (bolAvisos_cancelled_poll hm D d (avisos d).length
            (avisos d) 1 i (p + 1) hoc)]
          refine List.IsPrefix.trans
            (bolAvisos_registros_pre parse cancel D d (avisos d).length
              (avisos d) 1 i (p + 1)) ?_
          exact List.prefix_append _ _
        · have hoc' : (bolAvisos parse cancel D d (avisos d).length
              (avisos d) 1 i (p + 1)).cancelled = false := by
            revert hoc
            cases (bolAvisos parse cancel D d (avisos d).length
              (avisos d) 1 i (p + 1)).cancelled <;> simp
          rw [bolAvisos_no_cancel_eq parse cancel D d (avisos d).length
            (avisos d) 1 i (p + 1) hoc']
          by_cases hq : cancel (bolAvisos parse neverCancel D d
              (avisos d).length (avisos d) 1 i (p + 1)).nextPoll = true
          · rw [if_pos hq]
            exact List.prefix_append _ _
          · rw [if_neg hq]
            exact pre_append_of_pre (ih (d + 1) _ _)

theorem robot_records_proj (env : RobotEnv) (d1 d2 : PyDate) :
    (scrape_comprar_tics_robot d1 d2 env).records =
      (ejecutar_robot (some 1) env).1 := by
  simp only [scrape_comprar_tics_robot]
  split_ifs <;> rfl

theorem robot_retval_eq_length (env : RobotEnv) (d1 d2 : PyDate) :
    (scrape_comprar_tics_robot d1 d2 env).retval =
      (scrape_comprar_tics_robot d1 d2 env).records.length := by
  simp only [scrape_comprar_tics_robot]
  split_ifs <;> simp_all

theorem boletin_records_proj (env : BolEnv) (D : Nat) (d1 d2 : PyDate) :
    (scrape_boletin_tercera d1 d2 D env).records =
      (bolDays env.avisos env.parse env.cancel D D 0 0 0).1 := by
  simp only [scrape_boletin_tercera]
  split_ifs <;> rfl

theorem boletin_retval_eq_length (env : BolEnv) (D : Nat) (d1 d2 : PyDate) :
    (scrape_boletin_tercera d1 d2 D env).retval =
      (scrape_boletin_tercera d1 d2 D env).records.length := by
  simp only [scrape_boletin_tercera]
  split_ifs <;> simp_all

/-- C3: for each adapter, when the cancel predicate becomes (and
stays) true mid-run, the adapter returns exactly the number of records
merged before the observed cancellation and its record list is a prefix
of the record list of the corresponding never-cancelled run: nothing
accumulated is discarded, nothing skipped or in-flight is re-added.
(All runs are total functions of the environment in this model: no
exception escapes.) -/
theorem cancellation_partial_results :
    ∀ (env : ComprarEnv) (envR : RobotEnv) (envB : BolEnv) (D : Nat)
      (d1 d2 : PyDate),
      cancelMono env.cancel → cancelMono envR.cancel →
      cancelMono envB.cancel →
      ((scrape_comprar_tics d1 d2 env).retval =
          (scrape_comprar_tics d1 d2 env).records.length
        ∧ (scrape_comprar_tics d1 d2 env).records <+:
          (scrape_comprar_tics d1 d2
            { env with cancel := neverCancel }).records)
      ∧ ((scrape_comprar_tics_robot d1 d2 envR).retval =
          (scrape_comprar_tics_robot d1 d2 envR).records.length
        ∧ (scrape_comprar_tics_robot d1 d2 envR).records <+:
          (scrape_comprar_tics_robot d1 d2
            { envR with cancel := neverCancel }).records)
      ∧ ((scrape_boletin_tercera d1 d2 D envB).retval =
          (scrape_boletin_tercera d1 d2 D envB).records.length
        ∧ (scrape_boletin_tercera d1 d2 D envB).records <+:
          (scrape_boletin_tercera d1 d2 D
            { envB with cancel := neverCancel }).records) := by
  intro env envR envB D d1 d2 hmc hmr hmb
  refine ⟨⟨comprar_retval_eq_length env d1 d2, ?_⟩,
    ⟨robot_retval_eq_length envR d1 d2, ?_⟩,
    ⟨boletin_retval_eq_length envB D d1 d2, ?_⟩⟩
  · rw [comprar_records_proj env d1 d2,
      comprar_records_proj { env with cancel := neverCancel } d1 d2]
    exact comprarLoop_cancel_pre env.detail env.cancel _ _ 0
  · rw [robot_records_proj envR d1 d2,
      robot_records_proj { envR with cancel := neverCancel } d1 d2]
    exact botOuter_cancel_pre envR.detail envR.cancel (some 1)
      envR.pages 1 0 0
  · rw [boletin_records_proj envB D d1 d2,
      boletin_records_proj { envB with cancel := neverCancel } D d1 d2]
    exact bolDays_cancel_pre envB.avisos envB.parse hmb D D 0 0 0

/-- Environment for the C3 witness: a one-row listing whose cancel
predicate is constantly true (cancelled before the first row). -/
def wC3Comprar : ComprarEnv :=
  ⟨[[wC6Row]], fun i => .ok (scnDetail i), fun _ => true⟩

/-- C3 witness: the theorem applied at concrete environments (constant
cancel predicates are monotone). -/
theorem cancellation_partial_results_witness :
    (scrape_comprar_tics wD1 wD2 wC3Comprar).retval =
      (scrape_comprar_tics wD1 wD2 wC3Comprar).records.length
    ∧ (scrape_comprar_tics wD1 wD2 wC3Comprar).records <+:
      (scrape_comprar_tics wD1 wD2
        { wC3Comprar with cancel := neverCancel }).records :=
  (cancellation_partial_results wC3Comprar wC6RobotZero wC6BolZero 2
    wD1 wD2 (fun _ _ _ h => h) (fun _ _ _ h => h) (fun _ _ _ h => h)).1

/-! ## Progress traces: monotone and bounded -/

theorem chain'_append_le_100 {t : List Nat}
    (hc : List.Chain' (· ≤ ·) t) (hb : ∀ v ∈ t, v ≤ 100) :
    List.Chain' (· ≤ ·) (t ++ [100]) := by
  rw [List.chain'_append]
  refine ⟨hc, List.chain'_singleton _, ?_⟩
  intro x hx y hy
  simp only [List.head?_cons, Option.mem_def, Option.some.injEq] at hy
  subst hy
  exact hb x (List.mem_of_mem_getLast? hx)

theorem comprarLoop_trace_props (detail : Nat → DetailFetch)
    (cancel : Nat → Bool) (total : Nat) :
    ∀ (rows : List ListRow) (i : Nat), i + rows.length ≤ total →
      List.Chain' (· ≤ ·) (comprarLoop detail cancel total rows i).2
      ∧ ∀ v ∈ (comprarLoop detail cancel total rows i).2,
          (i + 1) * 100 / total ≤ v ∧ v ≤ 100 := by
  intro rows
  induction rows with
  | nil =>
    intro i _
    exact ⟨List.chain'_nil, by simp [comprarLoop]⟩
  | cons row rest ih =>
    intro i hlen
    by_cases h : cancel i = true
    · simp only [comprarLoop, h, if_true]
      exact ⟨List.chain'_nil, by simp⟩
    · have h' : cancel i = false := by revert h; cases cancel i <;> simp
      simp only [comprarLoop, h', Bool.false_eq_true, if_false]
      have hlen' : (i + 1) + rest.length ≤ total := by
        simp only [List.length_cons] at hlen
        omega
      obtain ⟨ihc, ihb⟩ := ih (i + 1) hlen'
      have hmono : (i + 1) * 100 / total ≤ (i + 2) * 100 / total :=
        Nat.div_le_div_right (Nat.mul_le_mul_right 100 (by omega))
      have hbound : (i + 1) * 100 / total ≤ 100 := by
        apply Nat.div_le_of_le_mul
        calc (i + 1) * 100 ≤ total * 100 :=
              Nat.mul_le_mul_right 100 (by omega)
          _ = total * 100 := rfl
      constructor
      · refine List.chain'_cons'.mpr ⟨?_, ihc⟩
        intro y hy
        have hymem := List.mem_of_mem_head? hy
        exact le_trans hmono (ihb y hymem).1
      · intro v hv
        rcases List.mem_cons.mp hv with hv | hv
        · exact ⟨le_of_eq hv.symm, by rw [hv]; exact hbound⟩
        · exact ⟨le_trans hmono (ihb v hv).1, (ihb v hv).2⟩

theorem comprar_trace_proj (env : ComprarEnv) (d1 d2 : PyDate) :
    (scrape_comprar_tics d1 d2 env).trace =
      (comprarLoop env.detail env.cancel env.pages.flatten.length
        env.pages.flatten 0).2 ++ [100] := by
  simp only [scrape_comprar_tics]
  split_ifs with h1 h2
  · rw [List.length_eq_zero.mp h1]; rfl
  · rfl
  · rfl

theorem comprar_trace_props (env : ComprarEnv) (d1 d2 : PyDate) :
    List.Chain' (· ≤ ·) (scrape_comprar_tics d1 d2 env).trace
    ∧ ∀ v ∈ (scrape_comprar_tics d1 d2 env).trace, v ≤ 100 := by
  rw [comprar_trace_proj env d1 d2]
  obtain ⟨hc, hb⟩ := comprarLoop_trace_props env.detail env.cancel
    env.pages.flatten.length env.pages.flatten 0 (by omega)
  refine ⟨chain'_append_le_100 hc (fun v hv => (hb v hv).2), ?_⟩
  intro v hv
  rcases List.mem_append.mp hv with hv | hv
  · exact (hb v hv).2
  · simp only [List.mem_singleton] at hv
    omega

theorem botRows_trace_props (detail : Nat → DetailFetch)
    (cancel : Nat → Bool) :
    ∀ (l : List BotRow) (i tp : Nat),
      List.Chain' (· ≤ ·) (botRows detail cancel l i tp).trace
      ∧ (∀ v ∈ (botRows detail cancel l i tp).trace,
          min (tp + 1) 99 ≤ v
          ∧ v ≤ min (botRows detail cancel l i tp).nextTotal 99)
      ∧ tp ≤ (botRows detail cancel l i tp).nextTotal := by
  intro l
  induction l with
  | nil =>
    intro i tp
    exact ⟨List.chain'_nil, by simp [botRows], le_refl tp⟩
  | cons fila rest ih =>
    intro i tp
    by_cases h : cancel i = true
    · simp only [botRows, h, if_true]
      exact ⟨List.chain'_nil, by simp, le_refl tp⟩
    · have h' : cancel i = false := by revert h; cases cancel i <;> simp
      simp only [botRows, h', Bool.false_eq_true, if_false]
      cases detail i with
      | fail => exact ih (i + 1) tp
      | ok d =>
        dsimp only
        obtain ⟨ihc, ihb, ihtp⟩ := ih (i + 1) (tp + 1)
        have hmono : min (tp + 1) 99 ≤ min (tp + 2) 99 :=
          min_le_min (by omega) (le_refl 99)
        refine ⟨?_, ?_, by omega⟩
        · refine List.chain'_cons'.mpr ⟨?_, ihc⟩
          intro y hy
          exact le_trans hmono (ihb y (List.mem_of_mem_head? hy)).1
        · intro v hv
          rcases List.mem_cons.mp hv with hv | hv
          · subst hv
            exact ⟨le_refl _, min_le_min (by omega) (le_refl 99)⟩
          · exact ⟨le_trans hmono (ihb v hv).1, (ihb v hv).2⟩

theorem botOuter_trace_props (detail : Nat → DetailFetch)
    (cancel : Nat → Bool) (mp : Option Nat) :
    ∀ (pages : List (List BotRow)) (pagina i tp : Nat),
      List.Chain' (· ≤ ·) (botOuter detail cancel mp pages pagina i tp).2
      ∧ ∀ v ∈ (botOuter detail cancel mp pages pagina i tp).2,
          min (tp + 1) 99 ≤ v ∧ v ≤ 99 := by
  intro pages
  induction pages with
  | nil => intro pagina i tp; exact ⟨List.chain'_nil, by simp [botOuter]⟩
  | cons page rest ih =>
    intro pagina i tp
    obtain ⟨hc1, hb1, htp1⟩ := botRows_trace_props detail cancel page i tp
    have hb1' : ∀ v ∈ (botRows detail cancel page i tp).trace,
        min (tp + 1) 99 ≤ v ∧ v ≤ 99 := by
      intro v hv
      exact ⟨(hb1 v hv).1, le_trans (hb1 v hv).2 (min_le_right _ _)⟩
    by_cases he : page.isEmpty
    · simp [botOuter, he]
    · simp only [botOuter, he, Bool.false_eq_true, if_false]
      by_cases hcl : (botRows detail cancel page i tp).cancelled = true
      · simp only [hcl, if_true]
        exact ⟨hc1, hb1'⟩
      · have hcl' : (botRows detail cancel page i tp).cancelled = false := by
          revert hcl
          cases (botRows detail cancel page i tp).cancelled <;> simp
        simp only [hcl', Bool.false_eq_true, if_false]
        by_cases hm : maxPagesHit mp (pagina + 1) = true
        · simp only [hm, if_true]
          exact ⟨hc1, hb1'⟩
        · have hm' : maxPagesHit mp (pagina + 1) = false := by
            revert hm; cases maxPagesHit mp (pagina + 1) <;> simp
          simp only [hm', Bool.false_eq_true, if_false]
          by_cases hr : rest.isEmpty
          · simp only [hr, if_true]
            exact ⟨hc1, hb1'⟩
          · simp only [hr, Bool.false_eq_true, if_false]
            obtain ⟨ihc, ihb⟩ := ih (pagina + 1)
              (botRows detail cancel page i tp).nextIdx
              (botRows detail cancel page i tp).nextTotal
            refine ⟨?_, ?_⟩
            · rw [List.chain'_append]
              refine ⟨hc1, ihc, ?_⟩
              intro x hx y hy
              have hx' := (hb1 x (List.mem_of_mem_getLast? hx)).2
              have hy' := (ihb y (List.mem_of_mem_head? hy)).1
              have : min ((botRows detail cancel page i tp).nextTotal) 99 ≤
                  min ((botRows detail cancel page i tp).nextTotal + 1) 99 :=
                min_le_min (by omega) (le_refl 99)
              omega
            · intro v hv
              rcases List.mem_append.mp hv with hv | hv
              · exact hb1' v hv
              · have hlow := (ihb v hv).1
                have : min (tp + 1) 99 ≤
                    min ((botRows detail cancel page i tp).nextTotal + 1) 99 :=
                  min_le_min (by omega) (le_refl 99)
                exact ⟨le_trans this hlow, (ihb v hv).2⟩

theorem robot_trace_proj (env : RobotEnv) (d1 d2 : PyDate) :
    (scrape_comprar_tics_robot d1 d2 env).trace =
      (ejecutar_robot (some 1) env).2 ++ [100] := by
  simp only [scrape_comprar_tics_robot]
  split_ifs <;> rfl

theorem robot_trace_props (env : RobotEnv) (d1 d2 : PyDate) :
    List.Chain' (· ≤ ·) (scrape_comprar_tics_robot d1 d2 env).trace
    ∧ ∀ v ∈ (scrape_comprar_tics_robot d1 d2 env).trace, v ≤ 100 := by
  rw [robot_trace_proj env d1 d2]
  obtain ⟨hc, hb⟩ := botOuter_trace_props env.detail env.cancel (some 1)
    env.pages 1 0 0
  refine ⟨chain'_append_le_100 hc (fun v hv => by
    have := (hb v hv).2; omega), ?_⟩
  intro v hv
  rcases List.mem_append.mp hv with hv | hv
  · have := (hb v hv).2; omega
  · simp only [List.mem_singleton] at hv
    omega

theorem bolClamp_le_100 (x : Nat) : bolClamp x ≤ 100 :=
  min_le_left _ _

theorem bolClamp_mono {x y : Nat} (h : x ≤ y) : bolClamp x ≤ bolClamp y := by
  unfold bolClamp
  omega

theorem bol_pct_shift (d n D : Nat) (hn : 0 < n) :
    (d * n + n) * 100 / (n * D) = (d + 1) * 100 / D := by
  have h : (d * n + n) * 100 = n * ((d + 1) * 100) := by ring
  rw [h, Nat.mul_div_mul_left _ _ hn]

theorem bol_pct_base (d n D : Nat) (hn : 0 < n) :
    d * n * 100 / (n * D) = d * 100 / D := by
  have h : d * n * 100 = n * (d * 100) := by ring
  rw [h, Nat.mul_div_mul_left _ _ hn]

theorem bolAvisos_trace_props (parse : Nat → ParseFetch)
    (cancel : Nat → Bool) (D d n : Nat) :
    ∀ (l : List Aviso) (idx i p : Nat), idx + l.length ≤ n + 1 →
      List.Chain' (· ≤ ·) (bolAvisos parse cancel D d n l idx i p).trace
      ∧ ∀ v ∈ (bolAvisos parse cancel D d n l idx i p).trace,
          bolClamp ((d * n + idx) * 100 / (n * D)) ≤ v
          ∧ v ≤ bolClamp ((d * n + n) * 100 / (n * D)) := by
  intro l
  induction l with
  | nil =>
    intro idx i p _
    exact ⟨List.chain'_nil, by simp [bolAvisos]⟩
  | cons av rest ih =>
    intro idx i p hlen
    have hidx : idx ≤ n := by
      simp only [List.length_cons] at hlen
      omega
    have hlen' : (idx + 1) + rest.length ≤ n + 1 := by
      simp only [List.length_cons] at hlen
      omega
    have hmono : bolClamp ((d * n + idx) * 100 / (n * D)) ≤
        bolClamp ((d * n + (idx + 1)) * 100 / (n * D)) :=
      bolClamp_mono (Nat.div_le_div_right (Nat.mul_le_mul_right 100 (by omega)))
    have hup : bolClamp ((d * n + idx) * 100 / (n * D)) ≤
        bolClamp ((d * n + n) * 100 / (n * D)) :=
      bolClamp_mono (Nat.div_le_div_right (Nat.mul_le_mul_right 100 (by omega)))
    by_cases h : cancel p = true
    · simp only [bolAvisos, h, if_true]
      exact ⟨List.chain'_nil, by simp⟩
    · have h' : cancel p = false := by revert h; cases cancel p <;> simp
      simp only [bolAvisos, h', Bool.false_eq_true, if_false]
      cases parse i with
      | exn =>
        obtain ⟨ihc, ihb⟩ := ih (idx + 1) (i + 1) (p + 1) hlen'
        refine ⟨ihc, fun v hv => ⟨le_trans hmono (ihb v hv).1, (ihb v hv).2⟩⟩
      | ok dat =>
        dsimp only
        obtain ⟨ihc, ihb⟩ := ih (idx + 1) (i + 1) (p + 1) hlen'
        constructor
        · refine List.chain'_cons'.mpr ⟨?_, ihc⟩
          intro y hy
          exact le_trans hmono (ihb y (List.mem_of_mem_head? hy)).1
        · intro v hv
          rcases List.mem_cons.mp hv with hv | hv
          · subst hv
            exact ⟨le_refl _, hup⟩
          · exact ⟨le_trans hmono (ihb v hv).1, (ihb v hv).2⟩

theorem bolDays_trace_props (avisos : Nat → List Aviso)
    (parse : Nat → ParseFetch) (cancel : Nat → Bool) (D : Nat) :
    ∀ (daysLeft d i p : Nat),
      List.Chain' (· ≤ ·) (bolDays avisos parse cancel D daysLeft d i p).2
      ∧ ∀ v ∈ (bolDays avisos parse cancel D daysLeft d i p).2,
          bolClamp (d * 100 / D) ≤ v ∧ v ≤ 100 := by
  intro daysLeft
  induction daysLeft with
  | zero => intro d i p; exact ⟨List.chain'_nil, by simp [bolDays]⟩
  | succ rest ih =>
    intro d i p
    have hdm : bolClamp (d * 100 / D) ≤ bolClamp ((d + 1) * 100 / D) :=
      bolClamp_mono (Nat.div_le_div_right (Nat.mul_le_mul_right 100 (by omega)))
    by_cases hp : cancel p = true
    · simp only [bolDays, hp, if_true]
      exact ⟨List.chain'_nil, by simp⟩
    · have hp' : cancel p = false := by revert hp; cases cancel p <;> simp
      simp only [bolDays, hp', Bool.false_eq_true, if_false]
      by_cases hn : (avisos d).length = 0
      · simp only [hn, if_pos rfl]
        obtain ⟨ihc, ihb⟩ := ih (d + 1) i (p + 1)
        constructor
        · refine List.chain'_cons'.mpr ⟨?_, ihc⟩
          intro y hy
          exact (ihb y (List.mem_of_mem_head? hy)).1
        · intro v hv
          rcases List.mem_cons.mp hv with hv | hv
          · subst hv
            exact ⟨hdm, bolClamp_le_100 _⟩
          · exact ⟨le_trans hdm (ihb v hv).1, (ihb v hv).2⟩
      · simp only [hn, Bool.false_eq_true, if_false]
        have hn' : 0 < (avisos d).length := Nat.pos_of_ne_zero hn
        obtain ⟨hc1, hb1⟩ := bolAvisos_trace_props parse cancel D d
          (avisos d).length (avisos d) 1 i (p + 1) (by omega)
        have hbase : bolClamp (d * 100 / D) ≤
            bolClamp ((d * (avisos d).length + 1) * 100 /
              ((avisos d).length * D)) := by
          rw [← bol_pct_base d (avisos d).length D hn']
          exact bolClamp_mono (Nat.div_le_div_right
            (Nat.mul_le_mul_right 100 (by omega)))
        have hshift : bolClamp ((d * (avisos d).length + (avisos d).length) *
            100 / ((avisos d).length * D)) = bolClamp ((d + 1) * 100 / D) := by
          rw [bol_pct_shift d (avisos d).length D hn']
        have hb1' : ∀ v ∈ (bolAvisos parse cancel D d (avisos d).length
            (avisos d) 1 i (p + 1)).trace,
            bolClamp (d * 100 / D) ≤ v ∧ v ≤ bolClamp ((d + 1) * 100 / D) := by
          intro v hv
          refine ⟨le_trans hbase (hb1 v hv).1, ?_⟩
          rw [← hshift]
          exact (hb1 v hv).2
        by_cases hq : cancel (bolAvisos parse cancel D d (avisos d).length
            (avisos d) 1 i (p + 1)).nextPoll = true
        · simp only [hq, if_true]
          refine ⟨hc1, fun v hv => ⟨(hb1' v hv).1,
            le_trans (hb1' v hv).2 (bolClamp_le_100 _)⟩⟩
        · have hq' : cancel (bolAvisos parse cancel D d (avisos d).length
              (avisos d) 1 i (p + 1)).nextPoll = false := by
            revert hq
            cases cancel (bolAvisos parse cancel D d (avisos d).length
              (avisos d) 1 i (p + 1)).nextPoll <;> simp
          simp only [hq', Bool.false_eq_true, if_false]
          obtain ⟨ihc, ihb⟩ := ih (d + 1)
            (bolAvisos parse cancel D d (avisos d).length
              (avisos d) 1 i (p + 1)).nextFetch
            ((bolAvisos parse cancel D d (avisos d).length
              (avisos d) 1 i (p + 1)).nextPoll + 1)
          constructor
          · rw [List.chain'_append]
            refine ⟨hc1, ihc, ?_⟩
            intro x hx y hy
            have hx' := (hb1' x (List.mem_of_mem_getLast? hx)).2
            have hy' := (ihb y (List.mem_of_mem_head? hy)).1
            omega
          · intro v hv
            rcases List.mem_append.mp hv with hv | hv
            · exact ⟨(hb1' v hv).1,
                le_trans (hb1' v hv).2 (bolClamp_le_100 _)⟩
            · exact ⟨le_trans hdm (ihb v hv).1, (ihb v hv).2⟩

theorem boletin_trace_proj (env : BolEnv) (D : Nat) (d1 d2 : PyDate) :
    (scrape_boletin_tercera d1 d2 D env).trace =
      (bolDays env.avisos env.parse env.cancel D D 0 0 0).2 := by
  simp only [scrape_boletin_tercera]
  split_ifs <;> rfl

theorem boletin_trace_props (env : BolEnv) (D : Nat) (d1 d2 : PyDate) :
    List.Chain' (· ≤ ·) (scrape_boletin_tercera d1 d2 D env).trace
    ∧ ∀ v ∈ (scrape_boletin_tercera d1 d2 D env).trace, v ≤ 100 := by
  rw [boletin_trace_proj env D d1 d2]
  obtain ⟨hc, hb⟩ := bolDays_trace_props env.avisos env.parse env.cancel
    D D 0 0 0
  exact ⟨hc, fun v hv => (hb v hv).2⟩

/-! ## Zero-record runs and the value 100 -/

theorem comprarLoop_pair (detail : Nat → DetailFetch) (cancel : Nat → Bool)
    (total : Nat) :
    ∀ (rows : List ListRow) (i : Nat),
      (comprarLoop detail cancel total rows i).1 = [] →
      (comprarLoop detail cancel total rows i).2 = [] := by
  intro rows
  induction rows with
  | nil => intro i _; rfl
  | cons row rest ih =>
    intro i h
    by_cases hc : cancel i = true
    · simp [comprarLoop, hc]
    · have hc' : cancel i = false := by revert hc; cases cancel i <;> simp
      simp [comprarLoop, hc'] at h

theorem comprar_zero_count (env : ComprarEnv) (d1 d2 : PyDate)
    (h : (scrape_comprar_tics d1 d2 env).records = []) :
    (scrape_comprar_tics d1 d2 env).trace.count 100 = 1 := by
  rw [comprar_trace_proj env d1 d2]
  rw [comprarLoop_pair env.detail env.cancel _ _ _
    (by rw [← comprar_records_proj env d1 d2]; exact h)]
  decide

theorem botRows_pair (detail : Nat → DetailFetch) (cancel : Nat → Bool) :
    ∀ (l : List BotRow) (i tp : Nat),
      (botRows detail cancel l i tp).registros = [] →
      (botRows detail cancel l i tp).trace = [] := by
  intro l
  induction l with
  | nil => intro i tp _; rfl
  | cons fila rest ih =>
    intro i tp h
    by_cases hc : cancel i = true
    · simp [botRows, hc]
    · have hc' : cancel i = false := by revert hc; cases cancel i <;> simp
      simp only [botRows, hc', Bool.false_eq_true, if_false] at h ⊢
      cases hd : detail i with
      | fail =>
        rw [hd] at h
        exact ih (i + 1) tp h
      | ok d =>
        rw [hd] at h
        simp at h

theorem botOuter_pair (detail : Nat → DetailFetch) (cancel : Nat → Bool)
    (mp : Option Nat) :
    ∀ (pages : List (List BotRow)) (pagina i tp : Nat),
      (botOuter detail cancel mp pages pagina i tp).1 = [] →
      (botOuter detail cancel mp pages pagina i tp).2 = [] := by
  intro pages
  induction pages with
  | nil => intro pagina i tp _; rfl
  | cons page rest ih =>
    intro pagina i tp h
    by_cases he : page.isEmpty
    · simp [botOuter, he]
    · simp only [botOuter, he, Bool.false_eq_true, if_false] at h ⊢
      by_cases hcl : (botRows detail cancel page i tp).cancelled = true
      · simp only [hcl, if_true] at h ⊢
        exact botRows_pair detail cancel page i tp h
      · have hcl' : (botRows detail cancel page i tp).cancelled = false := by
          revert hcl
          cases (botRows detail cancel page i tp).cancelled <;> simp
        simp only [hcl', Bool.false_eq_true, if_false] at h ⊢
        by_cases hm : maxPagesHit mp (pagina + 1) = true
        · simp only [hm, if_true] at h ⊢
          exact botRows_pair detail cancel page i tp h
        · have hm' : maxPagesHit mp (pagina + 1) = false := by
            revert hm; cases maxPagesHit mp (pagina + 1) <;> simp
          simp only [hm', Bool.false_eq_true, if_false] at h ⊢
          by_cases hr : rest.isEmpty
          · simp only [hr, if_true] at h ⊢
            exact botRows_pair detail cancel page i tp h
          · simp only [hr, Bool.false_eq_true, if_false] at h ⊢
            rcases List.append_eq_nil.mp h with ⟨h1, h2⟩
            rw [botRows_pair detail cancel page i tp h1,
              ih (pagina + 1) _ _ h2]
            rfl

theorem robot_zero_count (env : RobotEnv) (d1 d2 : PyDate)
    (h : (scrape_comprar_tics_robot d1 d2 env).records = []) :
    (scrape_comprar_tics_robot d1 d2 env).trace.count 100 = 1 := by
  rw [robot_trace_proj env d1 d2]
  show List.count 100
    ((botOuter env.detail env.cancel (some 1) env.pages 1 0 0).2 ++ [100]) = 1
  rw [botOuter_pair env.detail env.cancel (some 1) env.pages 1 0 0
    (by
      show (ejecutar_robot (some 1) env).1 = []
      rw [← robot_records_proj env d1 d2]
      exact h)]
  decide

theorem bolAvisos_pair (parse : Nat → ParseFetch) (cancel : Nat → Bool)
    (D d n : Nat) :
    ∀ (l : List Aviso) (idx i p : Nat),
      (bolAvisos parse cancel D d n l idx i p).registros = [] →
      (bolAvisos parse cancel D d n l idx i p).trace = [] := by
  intro l
  induction l with
  | nil => intro idx i p _; rfl
  | cons av rest ih =>
    intro idx i p h
    by_cases hc : cancel p = true
    · simp [bolAvisos, hc]
    · have hc' : cancel p = false := by revert hc; cases cancel p <;> simp
      simp only [bolAvisos, hc', Bool.false_eq_true, if_false] at h ⊢
      cases hd : parse i with
      | exn =>
        rw [hd] at h
        exact ih (idx + 1) (i + 1) (p + 1) h
      | ok dat =>
        rw [hd] at h
        simp at h

theorem bolDays_zero_count (avisos : Nat → List Aviso)
    (parse : Nat → ParseFetch) (cancel : Nat → Bool) (D : Nat) :
    ∀ (daysLeft d i p : Nat), d + daysLeft ≤ D →
      (bolDays avisos parse cancel D daysLeft d i p).1 = [] →
      (bolDays avisos parse cancel D daysLeft d i p).2.count 100 ≤ 1
      ∧ (d + daysLeft < D →
        (bolDays avisos parse cancel D daysLeft d i p).2.count 100 = 0) := by
  intro daysLeft
  induction daysLeft with
  | zero =>
    intro d i p hle h
    exact ⟨by simp [bolDays], fun _ => by simp [bolDays]⟩
  | succ rest ih =>
    intro d i p hle h
    by_cases hp : cancel p = true
    · refine ⟨?_, fun _ => ?_⟩ <;> simp [bolDays, hp]
    · have hp' : cancel p = false := by revert hp; cases cancel p <;> simp
      simp only [bolDays, hp', Bool.false_eq_true, if_false] at h ⊢
      by_cases hn : (avisos d).length = 0
      · rw [if_pos hn] at h ⊢
        have hD : 0 < D := by omega
        by_cases hlt : d + 1 < D
        · obtain ⟨ih1, ih2⟩ := ih (d + 1) i (p + 1) (by omega) h
          have hq : (d + 1) * 100 / D < 100 := by
            rw [Nat.div_lt_iff_lt_mul hD]
            omega
          have hpct : ¬ (bolClamp ((d + 1) * 100 / D) = 100) := by
            unfold bolClamp
            omega
          rw [List.count_cons]
          simp only [beq_iff_eq, if_neg hpct]
          refine ⟨by omega, fun hlt2 => ?_⟩
          have hzero := ih2 (by omega)
          omega
        · have hd1 : d + 1 = D := by omega
          have hrest : rest = 0 := by omega
          subst hrest
          have h0 : (bolDays avisos parse cancel D 0 (d + 1) i (p + 1)).2.count
              100 = 0 := rfl
          rw [List.count_cons]
          simp only [beq_iff_eq]
          refine ⟨?_, fun hlt2 => by omega⟩
          by_cases hc100 : bolClamp ((d + 1) * 100 / D) = 100 <;>
            simp [hc100, h0]
      · simp only [hn, Bool.false_eq_true, if_false] at h ⊢
        by_cases hq : cancel (bolAvisos parse cancel D d (avisos d).length
            (avisos d) 1 i (p + 1)).nextPoll = true
        · simp only [hq, if_true] at h ⊢
          rw [bolAvisos_pair parse cancel D d (avisos d).length
            (avisos d) 1 i (p + 1) h]
          exact ⟨by simp, fun _ => by simp⟩
        · have hq' : cancel (bolAvisos parse cancel D d (avisos d).length
              (avisos d) 1 i (p + 1)).nextPoll = false := by
            revert hq
            cases cancel (bolAvisos parse cancel D d (avisos d).length
              (avisos d) 1 i (p + 1)).nextPoll <;> simp
          simp only [hq', Bool.false_eq_true, if_false] at h ⊢
          rcases List.append_eq_nil.mp h with ⟨h1, h2⟩
          obtain ⟨ih1, ih2⟩ := ih (d + 1) _ _ (by omega) h2
          rw [List.count_append, bolAvisos_pair parse cancel D d
            (avisos d).length (avisos d) 1 i (p + 1) h1]
          refine ⟨by simpa using ih1, fun hlt => by simpa using ih2 (by omega)⟩

theorem boletin_zero_count (env : BolEnv) (D : Nat) (d1 d2 : PyDate)
    (h : (scrape_boletin_tercera d1 d2 D env).records = []) :
    (scrape_boletin_tercera d1 d2 D env).trace.count 100 ≤ 1 := by
  rw [boletin_trace_proj env D d1 d2]
  refine (bolDays_zero_count env.avisos env.parse env.cancel D D 0 0 0
    (by omega) ?_).1
  rw [← boletin_records_proj env D d1 d2]
  exact h

/-- C2 (amended): for every run of every registered adapter and every
behaviour of the environment and the cancel predicate, the integers
passed to `progress_callback` are monotonically non-decreasing and lie
in [0, 100] (they are naturals, so 0 is a lower bound by construction).
A zero-record run of `scrape_comprar_tics` or
`scrape_comprar_tics_robot` reports the value 100 exactly once; a
zero-record run of `scrape_boletin_tercera` reports 100 at most once,
but may report only intermediate day-level percentages and never 100
(see the counterexample). -/
theorem progress_monotone_bounded :
    (∀ (env : ComprarEnv) (d1 d2 : PyDate),
      List.Chain' (· ≤ ·) (scrape_comprar_tics d1 d2 env).trace
      ∧ ∀ v ∈ (scrape_comprar_tics d1 d2 env).trace, v ≤ 100)
    ∧ (∀ (envR : RobotEnv) (d1 d2 : PyDate),
      List.Chain' (· ≤ ·) (scrape_comprar_tics_robot d1 d2 envR).trace
      ∧ ∀ v ∈ (scrape_comprar_tics_robot d1 d2 envR).trace, v ≤ 100)
    ∧ (∀ (envB : BolEnv) (D : Nat) (d1 d2 : PyDate),
      List.Chain' (· ≤ ·) (scrape_boletin_tercera d1 d2 D envB).trace
      ∧ ∀ v ∈ (scrape_boletin_tercera d1 d2 D envB).trace, v ≤ 100)
    ∧ (∀ (env : ComprarEnv) (d1 d2 : PyDate),
      (scrape_comprar_tics d1 d2 env).records = [] →
      (scrape_comprar_tics d1 d2 env).trace.count 100 = 1)
    ∧ (∀ (envR : RobotEnv) (d1 d2 : PyDate),
      (scrape_comprar_tics_robot d1 d2 envR).records = [] →
      (scrape_comprar_tics_robot d1 d2 envR).trace.count 100 = 1)
    ∧ (∀ (envB : BolEnv) (D : Nat) (d1 d2 : PyDate),
      (scrape_boletin_tercera d1 d2 D envB).records = [] →
      (scrape_boletin_tercera d1 d2 D envB).trace.count 100 ≤ 1) :=
  ⟨comprar_trace_props, robot_trace_props,
   fun envB D d1 d2 => boletin_trace_props envB D d1 d2,
   comprar_zero_count, robot_zero_count,
   fun envB D d1 d2 h => boletin_zero_count envB D d1 d2 h⟩

/-- Boletín environment of the C2 counterexample: a two-day range; day
one lists no avisos, day two lists one aviso whose parse raises; never
cancelled. -/
def cexBolEnv : BolEnv :=
  ⟨fun d => if d = 0 then [] else [⟨['t'], ['u'], ['f']⟩],
   fun _ => .exn, fun _ => false⟩

/-- C2 counterexample: a completed two-day `scrape_boletin_tercera` run
with zero records whose progress trace is `[50]`: something is reported
but the value 100 is never reported, refuting "a zero-row run reports
100 once, or reports nothing". -/
theorem boletin_zero_row_progress_cex :
    (scrape_boletin_tercera wD1 wD2 2 cexBolEnv).records = []
    ∧ (scrape_boletin_tercera wD1 wD2 2 cexBolEnv).retval = 0
    ∧ (scrape_boletin_tercera wD1 wD2 2 cexBolEnv).trace = [50]
    ∧ (scrape_boletin_tercera wD1 wD2 2 cexBolEnv).trace.count 100 = 0
    ∧ (scrape_boletin_tercera wD1 wD2 2 cexBolEnv).trace ≠ [] := by
  decide

/-- C2 witness: the zero-record clauses of the theorem applied at
concrete environments, plus a bound instance on a concrete trace
element. -/
theorem progress_monotone_bounded_witness :
    (scrape_comprar_tics wD1 wD2 wC6ComprarZero).trace.count 100 = 1
    ∧ (scrape_comprar_tics_robot wD1 wD2 wC6RobotZero).trace.count 100 = 1
    ∧ (scrape_boletin_tercera wD1 wD2 1 wC6BolZero).trace.count 100 ≤ 1
    ∧ (100 : Nat) ≤ 100 :=
  ⟨progress_monotone_bounded.2.2.2.1 wC6ComprarZero wD1 wD2 (by decide),
   progress_monotone_bounded.2.2.2.2.1 wC6RobotZero wD1 wD2 (by decide),
   progress_monotone_bounded.2.2.2.2.2 wC6BolZero 1 wD1 wD2 (by decide),
   (progress_monotone_bounded.1 wC6ComprarZero wD1 wD2).2 100 (by decide)⟩
